import Mathlib

/-!
Verification development for the bleepr scene-uploader worker
(`src/index.ts`).  The worker is shallowly embedded: JSON values become an
inductive type, JavaScript primitive coercions (`String(..)`, `Number(..)`,
`||`, truthiness) become explicit functions, the network becomes an oracle
(`World`) supplying the response to each outbound call in order, and the
single `fetch` handler becomes a pure function from environment, request and
world to the list of remote calls performed plus the final response.

Modelling conventions:
* JavaScript numbers are modelled as exact rationals (an integer numerator
  with a natural-number denominator).  IEEE-754 rounding, `NaN` and the
  infinities are not representable; `Number(..)` conversions that produce
  `NaN` (or an infinity) are modelled as `none`.
* `undefined` and `null` are conflated into `Json.null`.  Every property
  access in the source is guarded by `|| <default>` or a truthiness /
  `typeof` / `Array.isArray` test, so the two are not distinguishable by
  the embedded code paths.
* Strings are Lean strings (sequences of Unicode scalar values).  The
  UTF-16 length used by JavaScript's `.length` is computed explicitly where
  the source uses it.  `toLowerCase` is modelled on ASCII letters (the only
  letters that can matter to the ASCII-only patterns it feeds).
-/

set_option maxRecDepth 100000

namespace Bleepr

/-- Exact representation of a JavaScript number: `num / den`.
`den` is positive for every value the embedding constructs. -/
structure JsNum where
  num : Int
  den : Nat
deriving DecidableEq, Repr

mutual

/-- A JSON value (the result of `JSON.parse`, or a literal built by the
worker).  Arrays and objects use the mutual types below so that all
recursion over values is structural. -/
inductive Json where
  | null
  | bool (b : Bool)
  | num (v : JsNum)
  | str (s : String)
  | arr (elems : JsonList)
  | obj (fields : JsonFields)
deriving DecidableEq, Repr

/-- A list of JSON values (array elements). -/
inductive JsonList where
  | nil
  | cons (hd : Json) (tl : JsonList)
deriving DecidableEq, Repr

/-- An ordered list of key/value properties of a JSON object
(JavaScript property insertion order). -/
inductive JsonFields where
  | nil
  | cons (key : String) (val : Json) (tl : JsonFields)
deriving DecidableEq, Repr

end

/-- Build a `JsonList` from a Lean list. -/
def listToJsonList (l : List Json) : JsonList :=
  l.foldr JsonList.cons JsonList.nil

/-- Convert a `JsonList` back to a Lean list. -/
def jsonListToList : JsonList → List Json
  | .nil => []
  | .cons x xs => x :: jsonListToList xs

/-- Number of elements of a `JsonList` (JavaScript `array.length`). -/
def jsonListLength : JsonList → Nat
  | .nil => 0
  | .cons _ xs => 1 + jsonListLength xs

/-- Build a `JsonFields` from a Lean association list. -/
def listToJsonFields (l : List (String × Json)) : JsonFields :=
  l.foldr (fun p acc => JsonFields.cons p.1 p.2 acc) JsonFields.nil

/-- Array literal helper. -/
def Jarr (l : List Json) : Json := Json.arr (listToJsonList l)

/-- Object literal helper (keys in insertion order, as in the source's
object literals). -/
def Jobj (l : List (String × Json)) : Json := Json.obj (listToJsonFields l)

/-- First value bound to `k` in a property list, if any. -/
def fieldsGet : JsonFields → String → Option Json
  | .nil, _ => none
  | .cons k0 v0 tl, k => if k0 == k then some v0 else fieldsGet tl k

/-- Does the property list bind `k`? -/
def fieldsHas : JsonFields → String → Bool
  | .nil, _ => false
  | .cons k0 _ tl, k => k0 == k || fieldsHas tl k

/-- JavaScript property assignment `o[k] = v`: overwrite the value in place
if the key is present (property order is kept), otherwise append the new
property at the end. -/
def objInsert : JsonFields → String → Json → JsonFields
  | .nil, k, v => .cons k v .nil
  | .cons k0 v0 tl, k, v =>
      if k0 == k then .cons k0 v tl else .cons k0 v0 (objInsert tl k v)

/-- Property read `j?.k`.  Missing properties and reads on non-objects give
`undefined`, which the model conflates with `Json.null` (every read in the
source is guarded by `||` or a type test, so the difference is unobservable). -/
def getField (j : Json) (k : String) : Json :=
  match j with
  | .obj fs => (fieldsGet fs k).getD Json.null
  | _ => Json.null

/-- JavaScript truthiness of a JSON value. -/
def truthy : Json → Bool
  | .null => false
  | .bool b => b
  | .num v => !(v.num == 0)
  | .str s => !(s.data.isEmpty)
  | .arr _ => true
  | .obj _ => true

/-- Model of `typeof x === "object"`: true for objects, arrays and `null`. -/
def isObjTypeOf : Json → Bool
  | .null => true
  | .arr _ => true
  | .obj _ => true
  | _ => false

/-- Model of `Array.isArray`. -/
def isArrayJ : Json → Bool
  | .arr _ => true
  | _ => false

/-- Elements of an array value (empty for non-arrays). -/
def arrElemsL (j : Json) : List Json :=
  match j with
  | .arr xs => jsonListToList xs
  | _ => []

/-- JavaScript `a || b` on JSON values. -/
def jsOr (a b : Json) : Json := if truthy a then a else b

/-! ### Character and string helpers -/

/-- Code point of a character. -/
def cp (c : Char) : Nat := c.toNat

/-- The whitespace set trimmed by JavaScript's `String.prototype.trim`
(and by `Number(string)`): ASCII whitespace, NBSP, BOM, line separators and
the Unicode space separators. -/
def isJsWs (c : Char) : Bool :=
  cp c == 9 || cp c == 10 || cp c == 11 || cp c == 12 || cp c == 13 ||
  cp c == 32 || cp c == 0xa0 || cp c == 0x1680 ||
  (0x2000 ≤ cp c && cp c ≤ 0x200a) ||
  cp c == 0x2028 || cp c == 0x2029 || cp c == 0x202f || cp c == 0x205f ||
  cp c == 0x3000 || cp c == 0xfeff

/-- Model of `s.trim()`. -/
def jsTrim (s : String) : String :=
  String.mk (((s.data.dropWhile isJsWs).reverse.dropWhile isJsWs).reverse)

/-- Model of `toLowerCase` on one character, modelled for ASCII letters. -/
def jsLowerChar (c : Char) : Char :=
  if 65 ≤ cp c && cp c ≤ 90 then Char.ofNat (cp c + 32) else c

/-- Model of `s.toLowerCase()` (ASCII letters; the result only feeds the ASCII-only
IMDb pattern, for which this is exact). -/
def jsToLower (s : String) : String := String.mk (s.data.map jsLowerChar)

/-- Model of `s.startsWith(p)`. -/
def sStartsWith (s p : String) : Bool := p.data.isPrefixOf s.data

/-- Model of `s.endsWith(p)`. -/
def sEndsWith (s p : String) : Bool := p.data.isSuffixOf s.data

/-- Is `needle` a contiguous subsequence of `hay`? -/
def containsSeq (needle hay : List Char) : Bool :=
  match hay with
  | [] => needle.isEmpty
  | _ :: t => needle.isPrefixOf hay || containsSeq needle t

/-- Model of `s.includes(sub)`. -/
def sContainsSub (s sub : String) : Bool := containsSeq sub.data s.data

/-- UTF-16 code units contributed by one character (JavaScript string
length counts code units). -/
def utf16Units (c : Char) : Nat := if 0x10000 ≤ cp c then 2 else 1

/-- JavaScript `s.length` (UTF-16 code units). -/
def utf16Len (s : String) : Nat := (s.data.map utf16Units).foldr (· + ·) 0

/-- UTF-8 bytes of one character. -/
def charUtf8Bytes (c : Char) : List Nat :=
  let n := cp c
  if n < 0x80 then [n]
  else if n < 0x800 then [0xc0 + n / 64, 0x80 + n % 64]
  else if n < 0x10000 then
    [0xe0 + n / 4096, 0x80 + (n / 64) % 64, 0x80 + n % 64]
  else
    [0xf0 + n / 262144, 0x80 + (n / 4096) % 64, 0x80 + (n / 64) % 64,
     0x80 + n % 64]

/-- UTF-8 encoding of a string. -/
def utf8Bytes (s : String) : List Nat := (s.data.map charUtf8Bytes).flatten

/-- Byte length of the UTF-8 encoding (what `TextEncoder().encode(x).byteLength`
measures). -/
def utf8Len (s : String) : Nat := (utf8Bytes s).length

/-- Join a list of strings with a separator. -/
def joinSep (sep : String) : List String → String
  | [] => ""
  | [x] => x
  | x :: y :: t => x ++ sep ++ joinSep sep (y :: t)

/-- Remove all newline characters (`s.replace(/\n/g, "")`). -/
def removeLineFeeds (s : String) : String :=
  String.mk (s.data.filter (fun c => !(c == '\n')))

/-! ### Number conversions -/

/-- Numeric equality of two `JsNum` (JavaScript `===` on numbers). -/
def numEqB (a b : JsNum) : Bool := a.num * (b.den : Int) == b.num * (a.den : Int)

/-- Decimal digits of the fractional part `r / d` (`0 ≤ r < d`), with fuel;
stops when the expansion terminates.  JavaScript prints at most 17
significant digits of a double, so 40 digits of fuel never truncates a
value a double can carry exactly as a short decimal. -/
def fracDigitChars : Nat → Nat → Nat → List Char
  | 0, _, _ => []
  | _ + 1, 0, _ => []
  | fu + 1, r, d =>
      let r10 := r * 10
      Char.ofNat (48 + r10 / d) :: fracDigitChars fu (r10 % d) d

/-- JavaScript number-to-string conversion (`String(n)`, template literals,
`JSON.stringify` of a number), for the exact rationals of the model. -/
def numToStr (v : JsNum) : String :=
  if v.den == 0 then "NaN"
  else
    let sign := if v.num < 0 then "-" else ""
    let n := v.num.natAbs
    let ip := Nat.repr (n / v.den)
    let fr := fracDigitChars 40 (n % v.den) v.den
    sign ++ ip ++ (if fr.isEmpty then "" else "." ++ String.mk fr)

/-- Is `c` an ASCII digit? -/
def isDigitChar (c : Char) : Bool := 48 ≤ cp c && cp c ≤ 57

/-- Value of a digit list, base 10. -/
def digitsVal (l : List Char) : Nat :=
  l.foldl (fun a c => a * 10 + (cp c - 48)) 0

/-- Digit value in a given radix, if valid. -/
def radixDigit (radix : Nat) (c : Char) : Option Nat :=
  let v :=
    if 48 ≤ cp c && cp c ≤ 57 then some (cp c - 48)
    else if 97 ≤ cp c && cp c ≤ 102 then some (cp c - 87)
    else if 65 ≤ cp c && cp c ≤ 70 then some (cp c - 55)
    else none
  match v with
  | some d => if d < radix then some d else none
  | none => none

/-- Value of a digit list in a radix, if all digits are valid. -/
def radixVal (radix : Nat) (l : List Char) : Option Nat :=
  l.foldl
    (fun a c =>
      match a, radixDigit radix c with
      | some acc, some d => some (acc * radix + d)
      | _, _ => none)
    (some 0)

/-- Build the value of `sign * (digits(ip) . digits(fp)) * 10 ^ ex`. -/
def mkDecNum (neg : Bool) (ip fp : List Char) (ex : Int) : JsNum :=
  let mant : Int := (digitsVal (ip ++ fp) : Int)
  let mant := if neg then -mant else mant
  let e : Int := ex - (fp.length : Int)
  if 0 ≤ e then ⟨mant * ((10 : Int) ^ e.toNat), 1⟩
  else ⟨mant, 10 ^ (-e).toNat⟩

/-- Parse an unsigned decimal numeric literal (with optional fraction and
exponent), requiring full consumption. -/
def parseDecLit (neg : Bool) (t : List Char) : Option JsNum :=
  let (ip, r1) := t.span isDigitChar
  let step2 : Option (List Char × List Char) :=
    match r1 with
    | '.' :: rest => some (rest.span isDigitChar)
    | _ => some ([], r1)
  match step2 with
  | none => none
  | some (fp, r2) =>
    if ip.isEmpty && fp.isEmpty then none
    else
      match r2 with
      | [] => some (mkDecNum neg ip fp 0)
      | c :: rest =>
        if c == 'e' || c == 'E' then
          let (eneg, ds) :=
            match rest with
            | '+' :: ds => (false, ds)
            | '-' :: ds => (true, ds)
            | ds => (false, ds)
          if ds.isEmpty || !(ds.all isDigitChar) then none
          else
            let ex : Int := if eneg then -(digitsVal ds : Int) else (digitsVal ds : Int)
            some (mkDecNum neg ip fp ex)
        else none

/-- Parse an unsigned JavaScript numeric string (decimal, or a
`0x`/`0o`/`0b` radix literal).  `Infinity` is not representable in the
model and yields `none`, which - like `NaN` - compares unequal to every
rational, matching how the worker consumes such values. -/
def parseUnsignedNum (t : List Char) : Option JsNum :=
  match t with
  | '0' :: x :: ds =>
    if x == 'x' || x == 'X' then
      match radixVal 16 ds with
      | some n => if ds.isEmpty then none else some ⟨(n : Int), 1⟩
      | none => none
    else if x == 'o' || x == 'O' then
      match radixVal 8 ds with
      | some n => if ds.isEmpty then none else some ⟨(n : Int), 1⟩
      | none => none
    else if x == 'b' || x == 'B' then
      match radixVal 2 ds with
      | some n => if ds.isEmpty then none else some ⟨(n : Int), 1⟩
      | none => none
    else parseDecLit false t
  | _ =>
    if t = "Infinity".data then none else parseDecLit false t

/-- JavaScript `Number(string)`: trim, empty means `0`, otherwise parse a
numeric literal (optionally signed for decimals); failure means `NaN`
(`none`). -/
def strToNumber (s : String) : Option JsNum :=
  let t := (jsTrim s).data
  if t.isEmpty then some ⟨0, 1⟩
  else
    match t with
    | '+' :: rest => if rest = "Infinity".data then none else parseDecLit false rest
    | '-' :: rest => if rest = "Infinity".data then none else parseDecLit true rest
    | _ => parseUnsignedNum t

/-! ### `String(x)` conversion -/

mutual

/-- JavaScript `String(x)` / template-literal conversion of a JSON value. -/
def jsString : Json → String
  | .null => "null"
  | .bool b => if b then "true" else "false"
  | .num v => numToStr v
  | .str s => s
  | .arr xs => jsArrJoin xs
  | .obj _ => "[object Object]"

/-- Model of `Array.prototype.toString` = `join(",")`; `null`/`undefined` elements
contribute the empty string. -/
def jsArrJoin : JsonList → String
  | .nil => ""
  | .cons x tl =>
    let hd := match x with | .null => "" | _ => jsString x
    match tl with
    | .nil => hd
    | _ => hd ++ "," ++ jsArrJoin tl

end

/-- JavaScript `Number(x)` on a JSON value.  Arrays and objects convert via
their string form (`ToPrimitive`), `null` gives `0`, booleans `0`/`1`. -/
def jsToNumber (j : Json) : Option JsNum :=
  match j with
  | .null => some ⟨0, 1⟩
  | .bool b => some ⟨if b then 1 else 0, 1⟩
  | .num v => some v
  | .str s => strToNumber s
  | .arr _ => strToNumber (jsString j)
  | .obj _ => strToNumber (jsString j)

/-! ### `JSON.stringify` -/

/-- Uppercase hex digit. -/
def hexDigitUpper (n : Nat) : Char :=
  if n < 10 then Char.ofNat (48 + n) else Char.ofNat (55 + n)

/-- Lowercase hex digit. -/
def hexDigitLower (n : Nat) : Char :=
  if n < 10 then Char.ofNat (48 + n) else Char.ofNat (87 + n)

/-- JSON string escaping of one character, as produced by `JSON.stringify`. -/
def escChar (c : Char) : List Char :=
  if c == '"' then ['\\', '"']
  else if c == '\\' then ['\\', '\\']
  else if cp c == 8 then ['\\', 'b']
  else if cp c == 9 then ['\\', 't']
  else if cp c == 10 then ['\\', 'n']
  else if cp c == 12 then ['\\', 'f']
  else if cp c == 13 then ['\\', 'r']
  else if cp c < 32 then
    ['\\', 'u', '0', '0', hexDigitLower (cp c / 16), hexDigitLower (cp c % 16)]
  else [c]

/-- A JSON string literal for `s`. -/
def quoteStr (s : String) : String :=
  "\"" ++ String.mk ((s.data.map escChar).flatten) ++ "\""

/-- Model of `indent * 2` spaces (the source always passes `2` as the gap). -/
def indentStr (n : Nat) : String := String.mk (List.replicate (2 * n) ' ')

mutual

/-- Model of `JSON.stringify(v)` when `pretty` is false, `JSON.stringify(v, null, 2)`
when `pretty` is true; `depth` is the current nesting level. -/
def stringifyV (pretty : Bool) (depth : Nat) : Json → String
  | .null => "null"
  | .bool b => if b then "true" else "false"
  | .num v => numToStr v
  | .str s => quoteStr s
  | .arr xs =>
    match xs with
    | .nil => "[]"
    | _ =>
      if pretty then
        "[\n" ++ stringifyL pretty (depth + 1) xs ++ "\n" ++ indentStr depth ++ "]"
      else "[" ++ stringifyL pretty (depth + 1) xs ++ "]"
  | .obj fs =>
    match fs with
    | .nil => "\x7b\x7d"
    | _ =>
      if pretty then
        "\x7b\n" ++ stringifyFs pretty (depth + 1) fs ++ "\n" ++ indentStr depth ++ "\x7d"
      else "\x7b" ++ stringifyFs pretty (depth + 1) fs ++ "\x7d"

/-- Array items, comma-separated (with per-item indentation when pretty). -/
def stringifyL (pretty : Bool) (depth : Nat) : JsonList → String
  | .nil => ""
  | .cons x tl =>
    let item := (if pretty then indentStr depth else "") ++ stringifyV pretty depth x
    match tl with
    | .nil => item
    | _ => item ++ (if pretty then ",\n" else ",") ++ stringifyL pretty depth tl

/-- Object members, comma-separated. -/
def stringifyFs (pretty : Bool) (depth : Nat) : JsonFields → String
  | .nil => ""
  | .cons k v tl =>
    let item := (if pretty then indentStr depth else "") ++ quoteStr k ++
      (if pretty then ": " else ":") ++ stringifyV pretty depth v
    match tl with
    | .nil => item
    | _ => item ++ (if pretty then ",\n" else ",") ++ stringifyFs pretty depth tl

end

/-- Model of `JSON.stringify(v)`. -/
def stringifyCompact (j : Json) : String := stringifyV false 0 j

/-- Model of `JSON.stringify(v, null, 2)`. -/
def stringifyPretty2 (j : Json) : String := stringifyV true 0 j

/-! ### `JSON.parse` -/

/-- JSON insignificant whitespace. -/
def isJsonWs (c : Char) : Bool :=
  c == ' ' || cp c == 9 || cp c == 10 || cp c == 13

/-- Skip JSON whitespace. -/
def skipWsJ (l : List Char) : List Char := l.dropWhile isJsonWs

/-- Is `c` a hex digit? -/
def isHexDigitChar (c : Char) : Bool :=
  (48 ≤ cp c && cp c ≤ 57) || (97 ≤ cp c && cp c ≤ 102) || (65 ≤ cp c && cp c ≤ 70)

/-- Read exactly four hex digits. -/
def parseHex4 : List Char → Option (Nat × List Char)
  | a :: b :: c :: d :: rest =>
    if isHexDigitChar a && isHexDigitChar b && isHexDigitChar c && isHexDigitChar d then
      match radixVal 16 [a, b, c, d] with
      | some n => some (n, rest)
      | none => none
    else none
  | _ => none

/-- Body of a JSON string literal (after the opening quote), with fuel.
`\uXXXX` escapes combine surrogate pairs into one scalar value; a lone
surrogate - which Lean characters cannot carry - is mapped to U+FFFD. -/
def parseStrBody : Nat → List Char → Option (List Char × List Char)
  | 0, _ => none
  | _ + 1, [] => none
  | fu + 1, c :: rest =>
    if c == '"' then some ([], rest)
    else if c == '\\' then
      match rest with
      | [] => none
      | e :: rest2 =>
        let simpleEsc : Option Char :=
          if e == '"' then some '"'
          else if e == '\\' then some '\\'
          else if e == '/' then some '/'
          else if e == 'b' then some (Char.ofNat 8)
          else if e == 'f' then some (Char.ofNat 12)
          else if e == 'n' then some '\n'
          else if e == 'r' then some '\r'
          else if e == 't' then some '\t'
          else none
        match simpleEsc with
        | some ch =>
          match parseStrBody fu rest2 with
          | some (cs, r) => some (ch :: cs, r)
          | none => none
        | none =>
          if e == 'u' then
            match parseHex4 rest2 with
            | none => none
            | some (n, rest3) =>
              if 0xd800 ≤ n && n ≤ 0xdbff then
                match rest3 with
                | '\\' :: 'u' :: rest4 =>
                  (match parseHex4 rest4 with
                   | some (m, rest5) =>
                     if 0xdc00 ≤ m && m ≤ 0xdfff then
                       let code := 0x10000 + (n - 0xd800) * 1024 + (m - 0xdc00)
                       match parseStrBody fu rest5 with
                       | some (cs, r) => some (Char.ofNat code :: cs, r)
                       | none => none
                     else
                       match parseStrBody fu ('\\' :: 'u' :: rest4) with
                       | some (cs, r) => some (Char.ofNat 0xfffd :: cs, r)
                       | none => none
                   | none => none)
                | _ =>
                  match parseStrBody fu rest3 with
                  | some (cs, r) => some (Char.ofNat 0xfffd :: cs, r)
                  | none => none
              else if 0xdc00 ≤ n && n ≤ 0xdfff then
                match parseStrBody fu rest3 with
                | some (cs, r) => some (Char.ofNat 0xfffd :: cs, r)
                | none => none
              else
                match parseStrBody fu rest3 with
                | some (cs, r) => some (Char.ofNat n :: cs, r)
                | none => none
          else none
    else if cp c < 32 then none
    else
      match parseStrBody fu rest with
      | some (cs, r) => some (c :: cs, r)
      | none => none

/-- A JSON number literal (strict JSON grammar), returning the value and
the rest of the input. -/
def parseJsonNum (l : List Char) : Option (JsNum × List Char) :=
  let (neg, l1) := match l with | '-' :: r => (true, r) | _ => (false, l)
  let intPart : Option (List Char × List Char) :=
    match l1 with
    | '0' :: r => some (['0'], r)
    | c :: _ =>
      if isDigitChar c && !(c == '0') then
        let (ds, r) := l1.span isDigitChar
        some (ds, r)
      else none
    | [] => none
  match intPart with
  | none => none
  | some (ip, r1) =>
    let fracPart : Option (List Char × List Char) :=
      match r1 with
      | '.' :: r =>
        let (ds, rr) := r.span isDigitChar
        if ds.isEmpty then none else some (ds, rr)
      | _ => some ([], r1)
    match fracPart with
    | none => none
    | some (fp, r2) =>
      match r2 with
      | c :: r =>
        if c == 'e' || c == 'E' then
          let (eneg, ds0) :=
            match r with
            | '+' :: rr => (false, rr)
            | '-' :: rr => (true, rr)
            | rr => (false, rr)
          let (ds, r3) := ds0.span isDigitChar
          if ds.isEmpty then none
          else
            let ex : Int := if eneg then -(digitsVal ds : Int) else (digitsVal ds : Int)
            some (mkDecNum neg ip fp ex, r3)
        else some (mkDecNum neg ip fp 0, r2)
      | [] => some (mkDecNum neg ip fp 0, [])

mutual

/-- Parse one JSON value (leading whitespace allowed), with fuel. -/
def parseVal : Nat → List Char → Option (Json × List Char)
  | 0, _ => none
  | fu + 1, l =>
    let l := skipWsJ l
    match l with
    | [] => none
    | c :: rest =>
      if c == 'n' then
        if ['u', 'l', 'l'].isPrefixOf rest then some (Json.null, rest.drop 3) else none
      else if c == 't' then
        if ['r', 'u', 'e'].isPrefixOf rest then some (Json.bool true, rest.drop 3) else none
      else if c == 'f' then
        if ['a', 'l', 's', 'e'].isPrefixOf rest then some (Json.bool false, rest.drop 4)
        else none
      else if c == '"' then
        match parseStrBody fu rest with
        | some (cs, r) => some (Json.str (String.mk cs), r)
        | none => none
      else if cp c == 0x5b then
        parseElems fu rest
      else if cp c == 0x7b then
        parseMembers fu JsonFields.nil true rest
      else if c == '-' || isDigitChar c then
        match parseJsonNum l with
        | some (v, r) => some (Json.num v, r)
        | none => none
      else none

/-- Parse array elements after `[` (whitespace handled), producing the
array value and the input after `]`. -/
def parseElems : Nat → List Char → Option (Json × List Char)
  | 0, _ => none
  | fu + 1, l =>
    let l1 := skipWsJ l
    match l1 with
    | c :: rest =>
      if cp c == 0x5d then some (Json.arr .nil, rest)
      else
        match parseVal fu l1 with
        | none => none
        | some (x, r1) =>
          match parseRestElems fu r1 with
          | some (xs, r2) => some (Json.arr (JsonList.cons x xs), r2)
          | none => none
    | [] => none

/-- Parse `, value` repetitions and the closing `]`. -/
def parseRestElems : Nat → List Char → Option (JsonList × List Char)
  | 0, _ => none
  | fu + 1, l =>
    let l1 := skipWsJ l
    match l1 with
    | c :: rest =>
      if cp c == 0x5d then some (JsonList.nil, rest)
      else if c == ',' then
        match parseVal fu rest with
        | none => none
        | some (x, r1) =>
          match parseRestElems fu r1 with
          | some (xs, r2) => some (JsonList.cons x xs, r2)
          | none => none
      else none
    | [] => none

/-- Parse object members (after `\x7b` when `first` is true, or after a
comma otherwise).  Duplicate keys behave like JavaScript property
assignment: the last value wins, at the first occurrence's position. -/
def parseMembers : Nat → JsonFields → Bool → List Char → Option (Json × List Char)
  | 0, _, _, _ => none
  | fu + 1, acc, first, l =>
    let l1 := skipWsJ l
    match l1 with
    | c :: rest =>
      if cp c == 0x7d then
        if first then some (Json.obj acc, rest) else none
      else if c == '"' then
        match parseStrBody fu rest with
        | none => none
        | some (kcs, r1) =>
          let r2 := skipWsJ r1
          match r2 with
          | ':' :: r3 =>
            (match parseVal fu r3 with
             | none => none
             | some (v, r4) =>
               let acc2 := objInsert acc (String.mk kcs) v
               let r5 := skipWsJ r4
               match r5 with
               | c2 :: r6 =>
                 if cp c2 == 0x7d then some (Json.obj acc2, r6)
                 else if c2 == ',' then parseMembers fu acc2 false r6
                 else none
               | [] => none)
          | _ => none
      else none
    | [] => none

end

/-- Model of `JSON.parse(s)`: `none` models a thrown `SyntaxError`. -/
def parseJson (s : String) : Option Json :=
  match parseVal (4 * s.data.length + 8) s.data with
  | some (j, rest) => if (skipWsJ rest).isEmpty then some j else none
  | none => none

/-! ### Base64 and percent-encoding -/

/-- Base64 alphabet. -/
def b64Char (n : Nat) : Char :=
  if n < 26 then Char.ofNat (65 + n)
  else if n < 52 then Char.ofNat (97 + (n - 26))
  else if n < 62 then Char.ofNat (48 + (n - 52))
  else if n == 62 then '+'
  else '/'

/-- Base64-encode a byte list (with `=` padding), as `btoa` does. -/
def b64EncodeGroups : List Nat → List Char
  | b0 :: b1 :: b2 :: t =>
    b64Char (b0 / 4) :: b64Char ((b0 % 4) * 16 + b1 / 16) ::
    b64Char ((b1 % 16) * 4 + b2 / 64) :: b64Char (b2 % 64) :: b64EncodeGroups t
  | [b0, b1] =>
    [b64Char (b0 / 4), b64Char ((b0 % 4) * 16 + b1 / 16), b64Char ((b1 % 16) * 4), '=']
  | [b0] => [b64Char (b0 / 4), b64Char ((b0 % 4) * 16), '=', '=']
  | [] => []

/-- The source's `base64encodeUtf8`:
`btoa(unescape(encodeURIComponent(input)))`, i.e. base64 of the UTF-8
bytes of the string. -/
def base64encodeUtf8 (input : String) : String :=
  String.mk (b64EncodeGroups (utf8Bytes input))

/-- Value of a base64 alphabet character. -/
def b64Val (c : Char) : Option Nat :=
  if 65 ≤ cp c && cp c ≤ 90 then some (cp c - 65)
  else if 97 ≤ cp c && cp c ≤ 122 then some (cp c - 97 + 26)
  else if 48 ≤ cp c && cp c ≤ 57 then some (cp c - 48 + 52)
  else if c == '+' then some 62
  else if c == '/' then some 63
  else none

/-- Decode base64 sextet values into bytes (forgiving-base64 final-chunk
handling: two leftover characters give one byte, three give two). -/
def b64Bytes : List Nat → Option (List Nat)
  | v1 :: v2 :: v3 :: v4 :: t =>
    (match b64Bytes t with
     | some bs =>
       some (((v1 * 4 + v2 / 16) :: ((v2 % 16) * 16 + v3 / 4) ::
         ((v3 % 4) * 64 + v4) :: bs))
     | none => none)
  | [v1, v2, v3] => some [v1 * 4 + v2 / 16, (v2 % 16) * 16 + v3 / 4]
  | [v1, v2] => some [v1 * 4 + v2 / 16]
  | [_] => none
  | [] => some []

/-- ASCII whitespace (removed by the forgiving-base64 decode of `atob`). -/
def isAsciiWs (c : Char) : Bool :=
  c == ' ' || cp c == 9 || cp c == 10 || cp c == 12 || cp c == 13

/-- Model of `atob`: forgiving-base64 decode to a byte list; `none` models the
thrown `InvalidCharacterError`. -/
def atobModel (s : String) : Option (List Nat) :=
  let cs := s.data.filter (fun c => !(isAsciiWs c))
  let cs :=
    if cs.length % 4 == 0 then
      match cs.reverse with
      | '=' :: '=' :: r => r.reverse
      | '=' :: r => r.reverse
      | _ => cs
    else cs
  if cs.length % 4 == 1 then none
  else
    match cs.foldr
      (fun c acc =>
        match acc, b64Val c with
        | some vs, some v => some (v :: vs)
        | _, _ => none)
      (some []) with
    | some vs => b64Bytes vs
    | none => none

/-- Strict UTF-8 decoding with fuel; rejects overlong forms, surrogates and
out-of-range code points (`decodeURIComponent(escape(..))` throws on these). -/
def utf8DecodeF : Nat → List Nat → Option (List Char)
  | 0, _ => none
  | _ + 1, [] => some []
  | fu + 1, b :: t =>
    if b < 0x80 then
      match utf8DecodeF fu t with
      | some cs => some (Char.ofNat b :: cs)
      | none => none
    else if 0xc2 ≤ b && b ≤ 0xdf then
      match t with
      | b2 :: t2 =>
        if 0x80 ≤ b2 && b2 ≤ 0xbf then
          match utf8DecodeF fu t2 with
          | some cs => some (Char.ofNat ((b - 0xc0) * 64 + (b2 - 0x80)) :: cs)
          | none => none
        else none
      | _ => none
    else if 0xe0 ≤ b && b ≤ 0xef then
      match t with
      | b2 :: b3 :: t2 =>
        if 0x80 ≤ b2 && b2 ≤ 0xbf && 0x80 ≤ b3 && b3 ≤ 0xbf then
          let code := (b - 0xe0) * 4096 + (b2 - 0x80) * 64 + (b3 - 0x80)
          if 0x800 ≤ code && !(0xd800 ≤ code && code ≤ 0xdfff) then
            match utf8DecodeF fu t2 with
            | some cs => some (Char.ofNat code :: cs)
            | none => none
          else none
        else none
      | _ => none
    else if 0xf0 ≤ b && b ≤ 0xf4 then
      match t with
      | b2 :: b3 :: b4 :: t2 =>
        if 0x80 ≤ b2 && b2 ≤ 0xbf && 0x80 ≤ b3 && b3 ≤ 0xbf &&
            0x80 ≤ b4 && b4 ≤ 0xbf then
          let code := (b - 0xf0) * 262144 + (b2 - 0x80) * 4096 +
            (b3 - 0x80) * 64 + (b4 - 0x80)
          if 0x10000 ≤ code && code ≤ 0x10ffff then
            match utf8DecodeF fu t2 with
            | some cs => some (Char.ofNat code :: cs)
            | none => none
          else none
        else none
      | _ => none
    else none

/-- Model of `decodeURIComponent(escape(atob(s)))`: base64-decode then UTF-8-decode;
`none` models either step throwing. -/
def decodeB64Utf8 (s : String) : Option String :=
  match atobModel s with
  | none => none
  | some bs =>
    match utf8DecodeF (bs.length + 1) bs with
    | some cs => some (String.mk cs)
    | none => none

/-- Characters `encodeURIComponent` leaves unescaped. -/
def uriUnreserved (c : Char) : Bool :=
  (65 ≤ cp c && cp c ≤ 90) || (97 ≤ cp c && cp c ≤ 122) ||
  (48 ≤ cp c && cp c ≤ 57) ||
  c == '-' || c == '_' || c == '.' || c == '!' || cp c == 126 ||
  c == '*' || cp c == 39 || c == '(' || c == ')'

/-- Percent-escape one byte. -/
def pctEncodeByte (b : Nat) : List Char :=
  ['%', hexDigitUpper (b / 16), hexDigitUpper (b % 16)]

/-- Model of `encodeURIComponent`. -/
def encodeURIComponent (s : String) : String :=
  String.mk
    ((s.data.map (fun c =>
      if uriUnreserved c then [c]
      else ((charUtf8Bytes c).map pctEncodeByte).flatten)).flatten)

/-! ### The worker: data model

The handler's observable behaviour is a pair: the ordered list of remote
calls it performs, and the HTTP response it returns.  All outbound I/O
outcomes (current time, JWT signing, the token-exchange response, and the
response to each successive GitHub call) are supplied by a `World` oracle. -/

/-- Worker configuration bindings (`Env` in the source). -/
structure Env where
  GITHUB_APP_ID : String
  GITHUB_INSTALLATION_ID : String
  GITHUB_PRIVATE_KEY_PEM : String
  BLEEPR_SUBMIT_KEY : Option String

/-- The inbound request: method, URL path, optional `authorization` header
and the raw body text (`request.json()` is `JSON.parse` of this text). -/
structure Req where
  method : String
  pathname : String
  authorization : Option String
  bodyText : String

/-- An HTTP response as consumed by `githubFetch`: success flag
(`resp.ok`), status, and the full body text. -/
structure HttpResp where
  ok : Bool
  status : Nat
  text : String

/-- The token-exchange response: `resp.ok`, status, and the result of
`resp.json().catch(() => null)` (`none` models a body that is not JSON). -/
structure ExchangeResp where
  ok : Bool
  status : Nat
  data : Option Json

/-- External nondeterminism for one handler run: the current time in
milliseconds, the outcome of `importPKCS8` + `SignJWT` (the crypto itself
is not modelled; the oracle supplies the signed JWT or a thrown error
message), the token-exchange response, and the response to the i-th GitHub
API call. -/
structure World where
  now : Nat
  sign : Except String String
  exchange : ExchangeResp
  gh : Nat → HttpResp

/-- One GitHub API request issued through `githubFetch`: method, URL, and
the JSON document passed to `JSON.stringify` for the body (if any).  The
fixed identification/`Accept`/`Authorization` headers added uniformly by
`githubFetch` are not recorded. -/
structure GhRequest where
  method : String
  url : String
  body : Option Json
deriving DecidableEq

/-- A remote call performed by the handler: the installation-token
exchange, or a GitHub API call. -/
inductive RemoteCall where
  | tokenExchange (url : String)
  | github (req : GhRequest)
deriving DecidableEq

/-- The worker's HTTP response, as far as the source distinguishes it:
the literal 404, an error JSON (`jsonError`), or the success JSON with the
pull-request URL. -/
inductive WResp where
  | notFound
  | err (status : Nat) (code message : String) (details : Option String)
  | okPr (prUrl : String)
deriving DecidableEq

/-- Model of `jsonError(status, code, message, details?)`. -/
def jsonError (status : Nat) (code message : String) (details : Option String) : WResp :=
  WResp.err status code message details

/-- Repository coordinates (`OWNER`, `REPO` in the source). -/
def OWNER : String := "MagicWagon"

/-- The content repository name. -/
def REPO : String := "scene-lists"

/-- Base URL of the repository's REST API. -/
def apiRepoUrl : String := "https://api.github.com/repos/" ++ OWNER ++ "/" ++ REPO

/-- Model of `normalizeWorkerPath`: strip one trailing slash. -/
def normalizeWorkerPath (pathname : String) : String :=
  if sEndsWith pathname "/" then String.mk pathname.data.dropLast else pathname

/-- Model of `sanitizeScenePath` (the argument is already a string, so the
`scenePath || ""` guard is the identity). -/
def sanitizeScenePath (scenePath : String) : Option String :=
  let p := jsTrim scenePath
  if p = "" then none
  else if sStartsWith p "/" || sContainsSub p "\\" || sContainsSub p ".." then none
  else if !(sStartsWith p "scenejsons/") then none
  else if !(sEndsWith p ".json") then none
  else if 180 < utf16Len p then none
  else some p

/-- Model of `githubFetch` body handling: read the text, parse as JSON, fall back to
the raw text on parse failure; an empty body gives `null`. -/
def ghData (r : HttpResp) : Json :=
  if r.text = "" then Json.null
  else
    match parseJson r.text with
    | some j => j
    | none => Json.str r.text

/-- The message of the error thrown by `githubFetch` on a non-2xx status. -/
def ghFailMsg (r : HttpResp) : String :=
  "GitHub API failed (" ++ Nat.repr r.status ++ "): " ++
    (match ghData r with
     | .str s => s
     | d => stringifyCompact d)

/-- Model of `githubFetch` outcome on a response: parsed data, or the thrown error's
message. -/
def ghCall (r : HttpResp) : Except String Json :=
  if r.ok then .ok (ghData r) else .error (ghFailMsg r)

/-- Model of `mintAppJwt`: config checks, then the signing outcome from the oracle.
`String(env.X || "")` is the identity on the string-typed bindings. -/
def mintAppJwt (env : Env) (w : World) : Except String String :=
  let appId := jsTrim env.GITHUB_APP_ID
  let pem := jsTrim env.GITHUB_PRIVATE_KEY_PEM
  if appId = "" || pem = "" then .error "Missing GitHub App credentials."
  else w.sign

/-- URL of the installation-token exchange endpoint. -/
def exchangeUrl (installationId : String) : String :=
  "https://api.github.com/app/installations/" ++ installationId ++ "/access_tokens"

/-- Model of `JSON.stringify(data)` where `data` came from `resp.json().catch(() => null)`. -/
def stringifyOrNull (data : Option Json) : String :=
  stringifyCompact (data.getD Json.null)

/-- Model of `mintInstallationToken`: returns the remote calls performed (none, or
the one exchange `POST`) and the token or the thrown error's message. -/
def mintInstallationToken (env : Env) (w : World) :
    List RemoteCall × Except String String :=
  let installationId := jsTrim env.GITHUB_INSTALLATION_ID
  if installationId = "" then ([], .error "Missing GITHUB_INSTALLATION_ID.")
  else
    match mintAppJwt env w with
    | .error e => ([], .error e)
    | .ok _jwt =>
      let call := RemoteCall.tokenExchange (exchangeUrl installationId)
      let data := w.exchange.data
      if !w.exchange.ok then
        ([call], .error ("Installation token mint failed (" ++
          Nat.repr w.exchange.status ++ "): " ++ stringifyOrNull data))
      else
        let token := jsTrim (jsString (jsOr (getField (data.getD Json.null) "token") (.str "")))
        if token = "" then ([call], .error "Installation token response missing token.")
        else ([call], .ok token)

/-- The normalized submission produced by a fully successful validation
pass: lowercased IMDb id, sanitized scene path, and the `scene_list`
value. -/
structure Validated where
  imdbId : String
  scenePath : String
  sceneList : Json
deriving DecidableEq

/-- The IMDb-id test `/^tt\d{7,9}$/.test(s)`. -/
def imdbTest (s : String) : Bool :=
  match s.data with
  | 't' :: 't' :: rest =>
    decide (7 ≤ rest.length) && decide (rest.length ≤ 9) && rest.all isDigitChar
  | _ => false

/-- Validation pipeline of the handler (source lines 120-161): body JSON,
`scene_list` shape, `schema_version`, `imdb_id`, `scenes`, `scene_path`,
payload size.  The argument is `JSON.parse` of the body text (`none` when
parsing threw). -/
def validate : Option Json → Except WResp Validated
  | none => .error (jsonError 400 "bad_json" "Body must be valid JSON." none)
  | some body =>
    let sceneList := getField body "scene_list"
    let scenePathRaw := getField body "scene_path"
    if !(truthy sceneList) || !(isObjTypeOf sceneList) then
      .error (jsonError 400 "bad_request" "Missing scene_list object." none)
    else
      let schemaVersion := jsToNumber (jsOr (getField sceneList "schema_version") (.num ⟨0, 1⟩))
      if !(match schemaVersion with | some v => numEqB v ⟨2, 1⟩ | none => false) then
        .error (jsonError 400 "bad_schema" "scene_list.schema_version must be 2." none)
      else
        let imdbId := jsToLower (jsTrim (jsString (jsOr (getField sceneList "imdb_id") (.str ""))))
        if !(imdbTest imdbId) then
          .error (jsonError 400 "bad_imdb_id" "scene_list.imdb_id must look like tt1234567." none)
        else
          let scenes := getField sceneList "scenes"
          if !(isArrayJ scenes) || (arrElemsL scenes).length == 0 then
            .error (jsonError 400 "no_scenes" "scene_list.scenes must be a non-empty array." none)
          else if 2500 < (arrElemsL scenes).length then
            .error (jsonError 400 "too_many_scenes" "scene_list.scenes is too large." none)
          else
            match sanitizeScenePath (jsString (jsOr scenePathRaw (.str ""))) with
            | none =>
              .error (jsonError 400 "bad_scene_path"
                "scene_path must be under scenejsons/ and end with .json." none)
            | some scenePath =>
              if 900000 < utf8Len (stringifyCompact body) then
                .error (jsonError 413 "payload_too_large" "Payload too large." none)
              else .ok ⟨imdbId, scenePath, sceneList⟩

/-- The submission branch name: fixed prefix, normalized IMDb id, and the
millisecond timestamp (`Date.now()`). -/
def mkBranch (imdbId : String) (now : Nat) : String :=
  "bleepr/upload/" ++ imdbId ++ "/" ++ Nat.repr now

/-- Model of `${sceneList.title || imdbId}` as used in commit messages and the PR
title. -/
def titleOr (v : Validated) : String :=
  jsString (jsOr (getField v.sceneList "title") (.str v.imdbId))

/-- Step 1 request: repository metadata. -/
def reqRepo : GhRequest := ⟨"GET", apiRepoUrl, none⟩

/-- Step 2 request: the base branch's ref. -/
def reqRef (baseBranch : String) : GhRequest :=
  ⟨"GET", apiRepoUrl ++ "/git/ref/heads/" ++ encodeURIComponent baseBranch, none⟩

/-- Step 3 request: create the submission branch at the base SHA. -/
def reqCreateRef (branch baseSha : String) : GhRequest :=
  ⟨"POST", apiRepoUrl ++ "/git/refs",
    some (Jobj [("ref", .str ("refs/heads/" ++ branch)), ("sha", .str baseSha)])⟩

/-- Step 4 request: write the scene-list file on the submission branch. -/
def reqPutScene (v : Validated) (branch : String) : GhRequest :=
  ⟨"PUT", apiRepoUrl ++ "/contents/" ++ v.scenePath,
    some (Jobj [
      ("message", .str ("Add scene list for " ++ titleOr v ++ " (" ++ v.imdbId ++ ")")),
      ("content", .str (base64encodeUtf8 (stringifyPretty2 v.sceneList))),
      ("branch", .str branch)])⟩

/-- Step 5 request: read `index.json` on the submission branch. -/
def reqReadIndex (branch : String) : GhRequest :=
  ⟨"GET", apiRepoUrl ++ "/contents/index.json?ref=" ++ encodeURIComponent branch, none⟩

/-- The IndexEntry pushed onto `movies`. -/
def mkEntry (v : Validated) : Json :=
  Jobj [
    ("imdb_id", .str v.imdbId),
    ("title", .str (jsTrim (jsString (jsOr (getField v.sceneList "title") (.str ""))))),
    ("path", .str v.scenePath),
    ("created_at", .str (jsTrim (jsString (jsOr (getField v.sceneList "created_at") (.str ""))))),
    ("video_duration_ms", .num (
      match jsToNumber (jsOr (getField v.sceneList "video_duration_ms") (.num ⟨0, 1⟩)) with
      | some q => if q.num == 0 then ⟨0, 1⟩ else q
      | none => ⟨0, 1⟩)),
    ("label", .str (jsTrim (jsString (jsOr (getField v.sceneList "label") (.str "")))))]

/-- The index mutation (source lines 212-228).  The guard
`!indexJson || typeof indexJson !== "object"` resets non-objects to `\x7b\x7d`
but lets ARRAYS through (`typeof [] === "object"`); JavaScript then adds
`movies` as a non-index property of the array, which `JSON.stringify`
silently drops - so for an array document the written value is the array
unchanged and the entry is lost. -/
def updateIndex (indexJson0 : Json) (entry : Json) : Json :=
  let j1 := if !(truthy indexJson0) || !(isObjTypeOf indexJson0) then Jobj [] else indexJson0
  match j1 with
  | .obj fs =>
    let movies :=
      match (fieldsGet fs "movies").getD Json.null with
      | .arr l => jsonListToList l
      | _ => []
    .obj (objInsert fs "movies" (Json.arr (listToJsonList (movies ++ [entry]))))
  | .arr xs => .arr xs
  | _ => Jobj []

/-- Decode the index file content (source line 210):
`b64 ? decodeURIComponent(escape(atob(b64.replace(/\n/g, "")))) : "\x7b\x7d"`.
A decode failure models the runtime exception thrown by `atob` or
`decodeURIComponent` (the runtime-specific message text is abstracted). -/
def indexTextOf (b64 : String) : Except String String :=
  if b64 = "" then .ok "\x7b\x7d"
  else
    match decodeB64Utf8 (removeLineFeeds b64) with
    | some t => .ok t
    | none => .error "invalid base64 or UTF-8 in index content"

/-- Model of `JSON.parse(indexText)` with the `catch` falling back to `\x7b\x7d`
(source lines 212-217 up to the truthiness guard, which `updateIndex`
applies). -/
def parsedIndex (indexText : String) : Json :=
  match parseJson indexText with
  | some j => j
  | none => Jobj []

/-- Step 6 request: write the updated index back. -/
def reqPutIndex (v : Validated) (branch indexSha : String) (updated : Json) : GhRequest :=
  ⟨"PUT", apiRepoUrl ++ "/contents/index.json",
    some (Jobj [
      ("message", .str ("Update index for " ++ titleOr v ++ " (" ++ v.imdbId ++ ")")),
      ("content", .str (base64encodeUtf8 (stringifyPretty2 updated))),
      ("sha", .str indexSha),
      ("branch", .str branch)])⟩

/-- Step 7 request: open the pull request. -/
def reqCreatePr (v : Validated) (branch baseBranch : String) : GhRequest :=
  ⟨"POST", apiRepoUrl ++ "/pulls",
    some (Jobj [
      ("title", .str ("Add scene list: " ++ titleOr v ++ " (" ++ v.imdbId ++ ")")),
      ("head", .str (OWNER ++ ":" ++ branch)),
      ("base", .str baseBranch),
      ("body", .str ("IMDb: " ++ v.imdbId ++ "\nPath: " ++ v.scenePath ++
        "\nCreated: " ++ jsString (jsOr (getField v.sceneList "created_at") (.str "")) ++ "\n"))])⟩

/-- The `github_error` response built by the handler's catch block. -/
def ghErrorResp (msg : String) : WResp :=
  jsonError 500 "github_error" "Failed to create pull request." (some msg)

/-- The orchestrator (source lines 170-258): the sequence of GitHub calls
after a token was minted.  Returns the GitHub requests issued, in order,
and the final response. -/
def orchestrate (v : Validated) (w : World) : List GhRequest × WResp :=
  match ghCall (w.gh 0) with
  | .error m => ([reqRepo], ghErrorResp m)
  | .ok repoInfo =>
    let baseBranch := jsString (jsOr (getField repoInfo "default_branch") (.str "main"))
    match ghCall (w.gh 1) with
    | .error m => ([reqRepo, reqRef baseBranch], ghErrorResp m)
    | .ok refInfo =>
      let baseSha := jsString (jsOr (getField (getField refInfo "object") "sha") (.str ""))
      if baseSha = "" then ([reqRepo, reqRef baseBranch], ghErrorResp "Missing base SHA.")
      else
        let branch := mkBranch v.imdbId w.now
        match ghCall (w.gh 2) with
        | .error m =>
          ([reqRepo, reqRef baseBranch, reqCreateRef branch baseSha], ghErrorResp m)
        | .ok _ =>
          match ghCall (w.gh 3) with
          | .error m =>
            ([reqRepo, reqRef baseBranch, reqCreateRef branch baseSha,
              reqPutScene v branch], ghErrorResp m)
          | .ok _ =>
            match ghCall (w.gh 4) with
            | .error m =>
              ([reqRepo, reqRef baseBranch, reqCreateRef branch baseSha,
                reqPutScene v branch, reqReadIndex branch], ghErrorResp m)
            | .ok indexResp =>
              let indexSha := jsString (jsOr (getField indexResp "sha") (.str ""))
              let indexContentB64 := jsString (jsOr (getField indexResp "content") (.str ""))
              match indexTextOf indexContentB64 with
              | .error m =>
                ([reqRepo, reqRef baseBranch, reqCreateRef branch baseSha,
                  reqPutScene v branch, reqReadIndex branch], ghErrorResp m)
              | .ok indexText =>
                let updated := updateIndex (parsedIndex indexText) (mkEntry v)
                match ghCall (w.gh 5) with
                | .error m =>
                  ([reqRepo, reqRef baseBranch, reqCreateRef branch baseSha,
                    reqPutScene v branch, reqReadIndex branch,
                    reqPutIndex v branch indexSha updated], ghErrorResp m)
                | .ok _ =>
                  match ghCall (w.gh 6) with
                  | .error m =>
                    ([reqRepo, reqRef baseBranch, reqCreateRef branch baseSha,
                      reqPutScene v branch, reqReadIndex branch,
                      reqPutIndex v branch indexSha updated,
                      reqCreatePr v branch baseBranch], ghErrorResp m)
                  | .ok pr =>
                    let prUrl := jsTrim (jsString (jsOr (getField pr "html_url") (.str "")))
                    let calls := [reqRepo, reqRef baseBranch, reqCreateRef branch baseSha,
                      reqPutScene v branch, reqReadIndex branch,
                      reqPutIndex v branch indexSha updated,
                      reqCreatePr v branch baseBranch]
                    if prUrl = "" then (calls, ghErrorResp "PR created but missing html_url.")
                    else (calls, WResp.okPr prUrl)

/-- The handler (`fetch` in the source): routing, optional shared-secret
check, validation, token minting, then the orchestrator. -/
def handle (env : Env) (req : Req) (w : World) : List RemoteCall × WResp :=
  let path := normalizeWorkerPath req.pathname
  if !(req.method = "POST") || !(path = "/submit-scene") then ([], .notFound)
  else
    let submitKey := jsTrim (env.BLEEPR_SUBMIT_KEY.getD "")
    if !(submitKey = "") && !((req.authorization.getD "") = ("Bearer " ++ submitKey)) then
      ([], jsonError 401 "unauthorized" "Missing or invalid Authorization bearer token." none)
    else
      match validate (parseJson req.bodyText) with
      | .error e => ([], e)
      | .ok v =>
        match mintInstallationToken env w with
        | (mc, .error m) =>
          (mc, jsonError 500 "auth_failed" "Failed to mint GitHub installation token." (some m))
        | (mc, .ok _token) =>
          let (gc, r) := orchestrate v w
          (mc ++ gc.map RemoteCall.github, r)

/-! ### Specification-side definitions

These restate the spec's claims as standalone predicates, to be compared
with the embedded code above. -/

/-- Rule 1 of the spec's validation order: `scene_list` must be a truthy
object. -/
def ruleBadRequest (body : Json) : Bool :=
  !(truthy (getField body "scene_list")) || !(isObjTypeOf (getField body "scene_list"))

/-- Rule 2: the numeric coercion of `schema_version` (defaulted through
`|| 0`) must be `2`. -/
def ruleBadSchema (body : Json) : Bool :=
  !(match jsToNumber (jsOr (getField (getField body "scene_list") "schema_version") (.num ⟨0, 1⟩)) with
    | some v => numEqB v ⟨2, 1⟩
    | none => false)

/-- The trimmed, lowercased string form of the submitted `imdb_id`. -/
def imdbNorm (body : Json) : String :=
  jsToLower (jsTrim (jsString (jsOr (getField (getField body "scene_list") "imdb_id") (.str ""))))

/-- Rule 3: the normalized `imdb_id` must match the pattern. -/
def ruleBadImdb (body : Json) : Bool := !(imdbTest (imdbNorm body))

/-- Rule 4a: `scenes` must be a non-empty array. -/
def ruleNoScenes (body : Json) : Bool :=
  let scenes := getField (getField body "scene_list") "scenes"
  !(isArrayJ scenes) || (arrElemsL scenes).length == 0

/-- Rule 4b: at most 2500 scenes. -/
def ruleTooMany (body : Json) : Prop :=
  2500 < (arrElemsL (getField (getField body "scene_list") "scenes")).length

/-- The string fed to `sanitizeScenePath`. -/
def scenePathStr (body : Json) : String :=
  jsString (jsOr (getField body "scene_path") (.str ""))

/-- Rule 5: the scene path must sanitize. -/
def ruleBadScenePath (body : Json) : Prop :=
  sanitizeScenePath (scenePathStr body) = none

/-- Rule 6: re-serialized body at most 900000 UTF-8 bytes. -/
def rulePayloadTooLarge (body : Json) : Prop :=
  900000 < utf8Len (stringifyCompact body)

instance (body : Json) : Decidable (ruleTooMany body) := by
  unfold ruleTooMany; infer_instance

instance (body : Json) : Decidable (ruleBadScenePath body) := by
  unfold ruleBadScenePath; infer_instance

instance (body : Json) : Decidable (rulePayloadTooLarge body) := by
  unfold rulePayloadTooLarge; infer_instance

/-- The classification of the first failing validation rule, in the spec's
fixed order, or `none` when every rule passes. -/
def firstFailure (body : Json) : Option WResp :=
  if ruleBadRequest body then
    some (jsonError 400 "bad_request" "Missing scene_list object." none)
  else if ruleBadSchema body then
    some (jsonError 400 "bad_schema" "scene_list.schema_version must be 2." none)
  else if ruleBadImdb body then
    some (jsonError 400 "bad_imdb_id" "scene_list.imdb_id must look like tt1234567." none)
  else if ruleNoScenes body then
    some (jsonError 400 "no_scenes" "scene_list.scenes must be a non-empty array." none)
  else if ruleTooMany body then
    some (jsonError 400 "too_many_scenes" "scene_list.scenes is too large." none)
  else if ruleBadScenePath body then
    some (jsonError 400 "bad_scene_path"
      "scene_path must be under scenejsons/ and end with .json." none)
  else if rulePayloadTooLarge body then
    some (jsonError 413 "payload_too_large" "Payload too large." none)
  else none

/-- The scene-path acceptance conditions listed by the spec, on the trimmed
path. -/
def scenePathAccepted (p : String) : Prop :=
  ¬p = "" ∧ sStartsWith p "/" = false ∧ sContainsSub p "\\" = false ∧
  sContainsSub p ".." = false ∧ sStartsWith p "scenejsons/" = true ∧
  sEndsWith p ".json" = true ∧ utf16Len p ≤ 180

instance (p : String) : Decidable (scenePathAccepted p) := by
  unfold scenePathAccepted; infer_instance

/-- The parsed data of the index-read response. -/
def idxRespData (w : World) : Json := ghData (w.gh 4)

/-- The SHA string captured at index-read time
(`String(indexResp?.sha || "")`). -/
def idxShaOf (w : World) : String :=
  jsString (jsOr (getField (idxRespData w) "sha") (.str ""))

/-- The base64 content string of the index-read response. -/
def idxB64Of (w : World) : String :=
  jsString (jsOr (getField (idxRespData w) "content") (.str ""))

/-- The decoded index text the orchestrator will parse (empty string when
the decode would throw; that branch issues no index write). -/
def idxTextOf (w : World) : String :=
  match indexTextOf (idxB64Of w) with
  | .ok t => t
  | .error _ => ""

/-- The `movies` list of an index document's fields (empty when absent or
not an array). -/
def moviesOfFields (fs : JsonFields) : List Json :=
  match (fieldsGet fs "movies").getD Json.null with
  | .arr l => jsonListToList l
  | _ => []

/-- The base branch the orchestrator will use: the repository's
`default_branch`, falling back to `"main"`. -/
def baseBranchOf (w : World) : String :=
  jsString (jsOr (getField (ghData (w.gh 0)) "default_branch") (.str "main"))

/-- The base commit SHA read from the default branch's ref. -/
def baseShaOf (w : World) : String :=
  jsString (jsOr (getField (getField (ghData (w.gh 1)) "object") "sha") (.str ""))

/-- The pull-request URL extracted from the PR-creation response. -/
def prUrlOf (w : World) : String :=
  jsTrim (jsString (jsOr (getField (ghData (w.gh 6)) "html_url") (.str "")))

/-- The full seven-request GitHub call plan of one submission, as a function
of the validated input and the world.  The orchestrator's actual call trace
is always a prefix of this plan. -/
def plannedCalls (v : Validated) (w : World) : List GhRequest :=
  let branch := mkBranch v.imdbId w.now
  [reqRepo, reqRef (baseBranchOf w), reqCreateRef branch (baseShaOf w), reqPutScene v branch,
   reqReadIndex branch,
   reqPutIndex v branch (idxShaOf w) (updateIndex (parsedIndex (idxTextOf w)) (mkEntry v)),
   reqCreatePr v branch (baseBranchOf w)]

/-- A request is a read, or carries the submission branch: as the write
branch of a contents `PUT`, as the ref being created, or as the head of the
pull request. -/
def onBranch (b : String) (r : GhRequest) : Prop :=
  r.method = "GET" ∨
  ∃ j, r.body = some j ∧
    (getField j "branch" = .str b ∨ getField j "ref" = .str ("refs/heads/" ++ b) ∨
     getField j "head" = .str (OWNER ++ ":" ++ b))

/-- Modelled from the spec: the index document the claim predicts for the
write-back - the document read on the branch with exactly one entry
appended at the end of `movies` (created if absent), empty or malformed
content standing for `\x7b movies: [] \x7d`. -/
def specIndexAppend (readDoc entry : Json) : Json :=
  match readDoc with
  | .obj fs =>
    .obj (objInsert fs "movies" (Json.arr (listToJsonList (moviesOfFields fs ++ [entry]))))
  | _ => Jobj [("movies", Json.arr (listToJsonList [entry]))]

/-! ### Concrete fixtures for witnesses and counterexamples -/

/-- A fully configured environment. -/
def cEnv : Env := ⟨"12345", "678", "PEMKEY", none⟩

/-- A valid submission body. -/
def okBodyText : String :=
  "\x7b\"scene_list\":\x7b\"schema_version\":2,\"imdb_id\":\"tt1234567\"," ++
  "\"title\":\"X\",\"created_at\":\"2020\",\"video_duration_ms\":1000," ++
  "\"label\":\"L\",\"scenes\":[1]\x7d,\"scene_path\":\"scenejsons/x.json\"\x7d"

/-- A well-routed valid request. -/
def cReq : Req := ⟨"POST", "/submit-scene", none, okBodyText⟩

/-- The `scene_list` value of `okBodyText`. -/
def cSceneList : Json :=
  Jobj [("schema_version", .num ⟨2, 1⟩), ("imdb_id", .str "tt1234567"),
    ("title", .str "X"), ("created_at", .str "2020"),
    ("video_duration_ms", .num ⟨1000, 1⟩), ("label", .str "L"),
    ("scenes", Jarr [.num ⟨1, 1⟩])]

/-- The validated form of `okBodyText`. -/
def cV : Validated := ⟨"tt1234567", "scenejsons/x.json", cSceneList⟩

/-- GitHub responses for a fully successful run (index content `e30=`
is base64 of the empty object). -/
def ghOk : Nat → HttpResp
  | 0 => ⟨true, 200, "\x7b\"default_branch\":\"main\"\x7d"⟩
  | 1 => ⟨true, 200, "\x7b\"object\":\x7b\"sha\":\"abc\"\x7d\x7d"⟩
  | 2 => ⟨true, 201, ""⟩
  | 3 => ⟨true, 201, ""⟩
  | 4 => ⟨true, 200, "\x7b\"sha\":\"idx\",\"content\":\"e30=\"\x7d"⟩
  | 5 => ⟨true, 200, ""⟩
  | 6 => ⟨true, 201, "\x7b\"html_url\":\"https://github.com/pr/1\"\x7d"⟩
  | _ => ⟨false, 500, ""⟩

/-- A world in which every remote call succeeds. -/
def wOk : World := ⟨5, .ok "jwt", ⟨true, 201, some (Jobj [("token", .str "tok123")])⟩, ghOk⟩

/-- The submission branch of the fixtures. -/
def cBranch : String := mkBranch "tt1234567" 5

/-- Like `wOk` but the token-exchange response carries no `token` field. -/
def wNoToken : World := { wOk with exchange := ⟨true, 200, some (Jobj [])⟩ }

/-- Like `wOk` but the ref-creation call reports a non-2xx status. -/
def wRefFail : World :=
  { wOk with gh := fun i => if i == 2 then ⟨false, 422, "conflict"⟩ else ghOk i }

/-- Like `wOk` but the index file content decodes to the JSON array `[]`
(`W10=` is base64 of `[]`). -/
def wArrIndex : World :=
  { wOk with gh := fun i =>
      if i == 4 then ⟨true, 200, "\x7b\"sha\":\"idx\",\"content\":\"W10=\"\x7d"⟩ else ghOk i }

/-- Like `wOk` but the repository metadata carries no `default_branch`. -/
def wNoDefBranch : World :=
  { wOk with gh := fun i => if i == 0 then ⟨true, 200, "\x7b\x7d"⟩ else ghOk i }

/-- Like `wOk` but the index-read response has neither `sha` nor
`content`. -/
def wNoIdxMeta : World :=
  { wOk with gh := fun i => if i == 4 then ⟨true, 200, "\x7b\x7d"⟩ else ghOk i }

/-! ### Helper lemmas -/

/-- Routing and shared-secret preconditions for reaching the body pipeline. -/
def routeOk (env : Env) (req : Req) : Prop :=
  req.method = "POST" ∧ normalizeWorkerPath req.pathname = "/submit-scene" ∧
  (jsTrim (env.BLEEPR_SUBMIT_KEY.getD "") = "" ∨
    req.authorization.getD "" = "Bearer " ++ jsTrim (env.BLEEPR_SUBMIT_KEY.getD ""))

theorem handle_routed (env : Env) (req : Req) (w : World) (hr : routeOk env req) :
    handle env req w =
      (match validate (parseJson req.bodyText) with
       | .error e => ([], e)
       | .ok v =>
         match mintInstallationToken env w with
         | (mc, .error m) =>
           (mc, jsonError 500 "auth_failed" "Failed to mint GitHub installation token." (some m))
         | (mc, .ok _token) =>
           let (gc, r) := orchestrate v w
           (mc ++ gc.map RemoteCall.github, r)) := by
  obtain ⟨h1, h2, h3⟩ := hr
  unfold handle
  rw [h2, h1]
  rcases h3 with h3 | h3
  · rw [h3]; simp
  · rw [h3]; simp

theorem handle_validate_error (env : Env) (req : Req) (w : World) (e : WResp)
    (hr : routeOk env req) (hv : validate (parseJson req.bodyText) = .error e) :
    handle env req w = ([], e) := by
  rw [handle_routed env req w hr, hv]

theorem handle_after_mint (env : Env) (req : Req) (w : World) (v : Validated) (tok : String)
    (hr : routeOk env req) (hv : validate (parseJson req.bodyText) = .ok v)
    (hm : (mintInstallationToken env w).2 = Except.ok tok) :
    handle env req w =
      ((mintInstallationToken env w).1 ++ (orchestrate v w).1.map RemoteCall.github,
        (orchestrate v w).2) := by
  rw [handle_routed env req w hr, hv]
  rcases hpair : mintInstallationToken env w with ⟨mc, mr⟩
  rw [hpair] at hm
  simp only at hm
  subst hm
  rcases ho : orchestrate v w with ⟨gc, r⟩
  simp [ho]

theorem handle_mint_error (env : Env) (req : Req) (w : World) (v : Validated) (m : String)
    (hr : routeOk env req) (hv : validate (parseJson req.bodyText) = .ok v)
    (hm : (mintInstallationToken env w).2 = Except.error m) :
    handle env req w =
      ((mintInstallationToken env w).1,
        jsonError 500 "auth_failed" "Failed to mint GitHub installation token." (some m)) := by
  rw [handle_routed env req w hr, hv]
  rcases hpair : mintInstallationToken env w with ⟨mc, mr⟩
  rw [hpair] at hm
  simp only at hm
  subst hm
  rfl

/-- The validation pipeline computes exactly the first-failure
classification; when every rule passes it returns the normalized
submission. -/
theorem validate_some_eq (body : Json) :
    validate (some body) =
      (match firstFailure body with
       | some e => .error e
       | none =>
         .ok ⟨imdbNorm body, (sanitizeScenePath (scenePathStr body)).getD "",
           getField body "scene_list"⟩) := by
  simp only [validate, firstFailure, ruleBadRequest, ruleBadSchema, ruleBadImdb, ruleNoScenes,
    ruleTooMany, ruleBadScenePath, rulePayloadTooLarge, imdbNorm, scenePathStr]
  split_ifs <;> try rfl
  all_goals
    cases hsp : sanitizeScenePath (jsString (jsOr (getField body "scene_path") (Json.str ""))) <;>
      simp_all

/-- The schema rule fails exactly when the `Number` coercion of
`schema_version` (with the `|| 0` default) is a number equal to 2. -/
theorem ruleBadSchema_false_iff (body : Json) :
    ruleBadSchema body = false ↔
      ∃ q, jsToNumber (jsOr (getField (getField body "scene_list") "schema_version")
          (Json.num ⟨0, 1⟩)) = some q ∧ numEqB q ⟨2, 1⟩ = true := by
  unfold ruleBadSchema
  cases h : jsToNumber (jsOr (getField (getField body "scene_list") "schema_version")
      (Json.num ⟨0, 1⟩)) <;> simp [h]

/-- The first-failure classification is `bad_schema` exactly when rule 1
passes and rule 2 fails. -/
theorem firstFailure_badSchema_iff (body : Json) :
    firstFailure body =
        some (jsonError 400 "bad_schema" "scene_list.schema_version must be 2." none) ↔
      ruleBadRequest body = false ∧ ruleBadSchema body = true := by
  unfold firstFailure
  split_ifs <;> simp_all [jsonError]

/-! ### Claims -/

/-- C2: for every routed request whose body parses but fails a validation
rule, the handler's response is the classification of the first failing
rule in the fixed order, and no remote call at all is performed. -/
theorem c2_validation_first_failure_no_calls
    (env : Env) (req : Req) (w : World) (body : Json) (e : WResp)
    (hr : routeOk env req) (hb : parseJson req.bodyText = some body)
    (hff : firstFailure body = some e) :
    handle env req w = ([], e) := by
  apply handle_validate_error env req w e hr
  rw [hb, validate_some_eq, hff]

/-- Witness for C2: a request whose body lacks `scene_list` is classified
`bad_request` with an empty remote-call trace. -/
theorem c2_validation_first_failure_no_calls_witness :
    handle cEnv ⟨"POST", "/submit-scene", none, "\x7b\x7d"⟩ wOk =
      ([], jsonError 400 "bad_request" "Missing scene_list object." none) :=
  c2_validation_first_failure_no_calls cEnv ⟨"POST", "/submit-scene", none, "\x7b\x7d"⟩ wOk
    (Json.obj .nil) (jsonError 400 "bad_request" "Missing scene_list object." none)
    ⟨rfl, rfl, Or.inl rfl⟩ rfl rfl

/-- A submission whose `schema_version` is the STRING `"2"`. -/
def c4Body : Json :=
  Jobj [("scene_list", Jobj [("schema_version", .str "2"), ("imdb_id", .str "bad")])]

/-- Counterexample for C4: the string `"2"` is not the integer 2, yet the
schema rule passes it (validation proceeds to the IMDb rule and rejects
with `bad_imdb_id`, not `bad_schema`). -/
theorem c4_string_two_passes_cex :
    getField (getField c4Body "scene_list") "schema_version" = Json.str "2"
    ∧ Json.str "2" ≠ Json.num ⟨2, 1⟩
    ∧ validate (some c4Body) =
        .error (jsonError 400 "bad_imdb_id" "scene_list.imdb_id must look like tt1234567." none)
    ∧ "bad_imdb_id" ≠ "bad_schema" :=
  ⟨rfl, by decide, rfl, by decide⟩

/-- C4 (amended): validation rejects with `bad_schema` exactly when
`scene_list` is acceptable and the JavaScript numeric coercion of
`schema_version` (with `|| 0` defaulting) is not the number 2 - so the
integer 2 passes, but so does any other value coercing to 2, such as the
string `"2"`. -/
theorem c4_schema_version_coercion (body : Json) :
    validate (some body) =
        .error (jsonError 400 "bad_schema" "scene_list.schema_version must be 2." none)
      ↔ (ruleBadRequest body = false ∧
          ¬∃ q, jsToNumber (jsOr (getField (getField body "scene_list") "schema_version")
              (Json.num ⟨0, 1⟩)) = some q ∧ numEqB q ⟨2, 1⟩ = true) := by
  rw [validate_some_eq]
  have hmatch : (match firstFailure body with
      | some e => (Except.error e : Except WResp Validated)
      | none =>
        .ok ⟨imdbNorm body, (sanitizeScenePath (scenePathStr body)).getD "",
          getField body "scene_list"⟩) =
        .error (jsonError 400 "bad_schema" "scene_list.schema_version must be 2." none) ↔
      firstFailure body =
        some (jsonError 400 "bad_schema" "scene_list.schema_version must be 2." none) := by
    cases h : firstFailure body <;> simp [h]
  rw [hmatch, firstFailure_badSchema_iff]
  constructor
  · rintro ⟨h1, h2⟩
    refine ⟨h1, ?_⟩
    rw [← Bool.not_eq_false, ruleBadSchema_false_iff] at h2
    simpa using h2
  · rintro ⟨h1, h2⟩
    refine ⟨h1, ?_⟩
    rw [← Bool.not_eq_false, ruleBadSchema_false_iff]
    simpa using h2

/-- Counterexample for C5: with a blank application id (and everything else
valid) the handler classifies the failure `auth_failed` - the code has no
`auth_config_error` classification at all. -/
theorem c5_auth_config_error_absent_cex :
    handle ⟨"", "678", "PEMKEY", none⟩ cReq wOk =
      ([], jsonError 500 "auth_failed" "Failed to mint GitHub installation token."
        (some "Missing GitHub App credentials."))
    ∧ "auth_failed" ≠ "auth_config_error" :=
  ⟨rfl, by decide⟩

/-- C5 (amended): if the configured application id or private key is blank,
credential minting fails and the submission is rejected with the
`auth_failed` classification (there is no distinct `auth_config_error`),
with no remote call performed. -/
theorem c5_blank_credentials_auth_failed
    (env : Env) (req : Req) (w : World) (v : Validated)
    (hr : routeOk env req) (hv : validate (parseJson req.bodyText) = .ok v)
    (hcred : jsTrim env.GITHUB_APP_ID = "" ∨ jsTrim env.GITHUB_PRIVATE_KEY_PEM = "") :
    ∃ d, handle env req w =
      ([], jsonError 500 "auth_failed" "Failed to mint GitHub installation token." (some d)) := by
  have hm : ∃ m, mintInstallationToken env w = ([], Except.error m) := by
    unfold mintInstallationToken mintAppJwt
    by_cases hid : jsTrim env.GITHUB_INSTALLATION_ID = ""
    · exact ⟨"Missing GITHUB_INSTALLATION_ID.", by rw [if_pos hid]⟩
    · rw [if_neg hid]
      rcases hcred with h | h <;> simp [h]
  obtain ⟨m, hm⟩ := hm
  refine ⟨m, ?_⟩
  have hrw := handle_mint_error env req w v m hr hv (by rw [hm])
  rw [hrw, hm]

/-- Witness for C5 (amended): blank application id on an otherwise valid
submission. -/
theorem c5_blank_credentials_auth_failed_witness :
    ∃ d, handle ⟨"", "678", "PEMKEY", none⟩ cReq wOk =
      ([], jsonError 500 "auth_failed" "Failed to mint GitHub installation token." (some d)) :=
  c5_blank_credentials_auth_failed ⟨"", "678", "PEMKEY", none⟩ cReq wOk cV
    ⟨rfl, rfl, Or.inl rfl⟩ rfl (Or.inl rfl)

/-- Validation's error result is exactly the first-failure classification. -/
theorem validate_error_iff (body : Json) (e : WResp) :
    validate (some body) = .error e ↔ firstFailure body = some e := by
  rw [validate_some_eq]
  cases h : firstFailure body <;> simp [h]

/-- A successful validation returns the normalized submission. -/
theorem validate_ok_shape (body : Json) (v : Validated)
    (h : validate (some body) = .ok v) :
    v = ⟨imdbNorm body, (sanitizeScenePath (scenePathStr body)).getD "",
      getField body "scene_list"⟩ := by
  rw [validate_some_eq] at h
  cases hf : firstFailure body <;> rw [hf] at h <;> simp at h
  exact h.symm

/-- The IMDb test is the structural pattern `tt` followed by 7-9 ASCII
digits. -/
theorem imdbTest_iff (s : String) :
    imdbTest s = true ↔
      ∃ ds : List Char, s.data = 't' :: 't' :: ds ∧ 7 ≤ ds.length ∧ ds.length ≤ 9 ∧
        ∀ c ∈ ds, isDigitChar c = true := by
  unfold imdbTest
  constructor
  · intro h
    split at h
    next rest heq =>
      refine ⟨rest, heq, ?_, ?_, ?_⟩ <;> simp_all [List.all_eq_true]
    next => exact absurd h (by simp)
  · rintro ⟨ds, hds, h7, h9, hdig⟩
    rw [hds]
    simp [List.all_eq_true, h7, h9]
    exact hdig

/-- First-failure is `bad_imdb_id` exactly when rules 1-2 pass and rule 3
fails. -/
theorem firstFailure_badImdb_iff (body : Json) :
    firstFailure body =
        some (jsonError 400 "bad_imdb_id" "scene_list.imdb_id must look like tt1234567." none)
      ↔ ruleBadRequest body = false ∧ ruleBadSchema body = false ∧ ruleBadImdb body = true := by
  unfold firstFailure
  split_ifs <;> simp_all [jsonError]

/-- C6: when the earlier rules pass, validation rejects with `bad_imdb_id`
exactly when the trimmed + lowercased `imdb_id` fails to match
`tt` + 7-9 digits; on success the lowercased form is the one carried
downstream. -/
theorem c6_imdb_id_pattern (body : Json)
    (h1 : ruleBadRequest body = false) (h2 : ruleBadSchema body = false) :
    (validate (some body) =
        .error (jsonError 400 "bad_imdb_id" "scene_list.imdb_id must look like tt1234567." none)
      ↔ ¬∃ ds : List Char, (imdbNorm body).data = 't' :: 't' :: ds ∧ 7 ≤ ds.length ∧
          ds.length ≤ 9 ∧ ∀ c ∈ ds, isDigitChar c = true)
    ∧ ∀ v, validate (some body) = .ok v → v.imdbId = imdbNorm body := by
  constructor
  · rw [validate_error_iff, firstFailure_badImdb_iff]
    simp only [h1, h2, true_and]
    rw [show (ruleBadImdb body = true) ↔ ¬imdbTest (imdbNorm body) = true by
      unfold ruleBadImdb; simp]
    exact not_congr (imdbTest_iff _)
  · intro v hv
    rw [validate_ok_shape body v hv]

/-- The body of `okBodyText` as a JSON value. -/
def cBody : Json := Jobj [("scene_list", cSceneList), ("scene_path", .str "scenejsons/x.json")]

/-- Witness for C6 at the valid fixture body. -/
theorem c6_imdb_id_pattern_witness :
    (validate (some cBody) =
        .error (jsonError 400 "bad_imdb_id" "scene_list.imdb_id must look like tt1234567." none)
      ↔ ¬∃ ds : List Char, (imdbNorm cBody).data = 't' :: 't' :: ds ∧ 7 ≤ ds.length ∧
          ds.length ≤ 9 ∧ ∀ c ∈ ds, isDigitChar c = true)
    ∧ ∀ v, validate (some cBody) = .ok v → v.imdbId = imdbNorm cBody :=
  c6_imdb_id_pattern cBody (by decide) (by decide)

/-- Sanitization succeeds exactly on trimmed paths meeting the
spec's conditions, and returns the trimmed path unchanged. -/
theorem sanitize_some_iff (s p : String) :
    sanitizeScenePath s = some p ↔ p = jsTrim s ∧ scenePathAccepted (jsTrim s) := by
  unfold sanitizeScenePath scenePathAccepted
  dsimp only
  split_ifs with e1 e2 e3 e4 e5 <;> simp_all [not_or, Nat.not_lt]
  · intro _ hA hB hC _ _
    rcases e2 with (h | h) | h <;> simp_all
  · exact eq_comm

/-- First-failure is `bad_scene_path` exactly when rules 1-4 pass and the
path fails to sanitize. -/
theorem firstFailure_badScenePath_iff (body : Json) :
    firstFailure body =
        some (jsonError 400 "bad_scene_path"
          "scene_path must be under scenejsons/ and end with .json." none)
      ↔ ruleBadRequest body = false ∧ ruleBadSchema body = false ∧ ruleBadImdb body = false ∧
        ruleNoScenes body = false ∧ ¬ruleTooMany body ∧ ruleBadScenePath body := by
  unfold firstFailure
  split_ifs <;> simp_all [jsonError]

/-- C7: a scene path is accepted exactly when, after trimming, it is
non-empty, has no leading slash, backslash or `..`, sits under
`scenejsons/` with extension `.json`, and is at most 180 UTF-16 units; the
accepted value is the trimmed path unchanged, and (earlier rules passing)
validation rejects with `bad_scene_path` exactly when sanitization
fails. -/
theorem c7_scene_path_rules :
    (∀ s p, sanitizeScenePath s = some p ↔ p = jsTrim s ∧ scenePathAccepted (jsTrim s))
    ∧ ∀ body : Json, ruleBadRequest body = false → ruleBadSchema body = false →
        ruleBadImdb body = false → ruleNoScenes body = false → ¬ruleTooMany body →
        (validate (some body) =
            .error (jsonError 400 "bad_scene_path"
              "scene_path must be under scenejsons/ and end with .json." none)
          ↔ sanitizeScenePath (scenePathStr body) = none) := by
  refine ⟨sanitize_some_iff, ?_⟩
  intro body h1 h2 h3 h4 h5
  rw [validate_error_iff, firstFailure_badScenePath_iff]
  simp [h1, h2, h3, h4, h5, ruleBadScenePath]

/-- A valid submission whose `scene_path` contains a traversal sequence. -/
def c7Body : Json := Jobj [("scene_list", cSceneList), ("scene_path", .str "../evil")]

/-- Witness for C7: a traversal path is rejected; the fixture path is
accepted as its own trimmed form. -/
theorem c7_scene_path_rules_witness :
    (validate (some c7Body) =
        .error (jsonError 400 "bad_scene_path"
          "scene_path must be under scenejsons/ and end with .json." none)
      ↔ sanitizeScenePath (scenePathStr c7Body) = none)
    ∧ (sanitizeScenePath "scenejsons/x.json" = some "scenejsons/x.json" ↔
        "scenejsons/x.json" = jsTrim "scenejsons/x.json" ∧
          scenePathAccepted (jsTrim "scenejsons/x.json")) :=
  ⟨c7_scene_path_rules.2 c7Body (by decide) (by decide) (by decide) (by decide) (by decide),
   c7_scene_path_rules.1 "scenejsons/x.json" "scenejsons/x.json"⟩

/-- C8: if the token-exchange response has a non-2xx status or lacks a
non-empty `token` field, the handler fails with `auth_failed` after
performing exactly the one exchange call - no repository call is made. -/
theorem c8_token_missing_auth_failed
    (env : Env) (req : Req) (w : World) (v : Validated) (jwt : String)
    (hr : routeOk env req) (hv : validate (parseJson req.bodyText) = .ok v)
    (hid : ¬jsTrim env.GITHUB_INSTALLATION_ID = "")
    (hjwt : mintAppJwt env w = .ok jwt)
    (htok : w.exchange.ok = false ∨
      jsTrim (jsString (jsOr (getField (w.exchange.data.getD Json.null) "token") (.str ""))) = "") :
    ∃ d, handle env req w =
      ([RemoteCall.tokenExchange (exchangeUrl (jsTrim env.GITHUB_INSTALLATION_ID))],
        jsonError 500 "auth_failed" "Failed to mint GitHub installation token." (some d)) := by
  have hm : ∃ m, mintInstallationToken env w =
      ([RemoteCall.tokenExchange (exchangeUrl (jsTrim env.GITHUB_INSTALLATION_ID))],
        Except.error m) := by
    unfold mintInstallationToken
    rw [if_neg hid, hjwt]
    cases hok : w.exchange.ok
    · refine ⟨"Installation token mint failed (" ++ Nat.repr w.exchange.status ++ "): " ++
        stringifyOrNull w.exchange.data, ?_⟩
      simp
    · rcases htok with h | h
      · rw [hok] at h; cases h
      · refine ⟨"Installation token response missing token.", ?_⟩
        simp [h]
  obtain ⟨m, hm⟩ := hm
  refine ⟨m, ?_⟩
  have hrw := handle_mint_error env req w v m hr hv (by rw [hm])
  rw [hrw, hm]

/-- Witness for C8: a 2xx exchange response whose body has no `token`. -/
theorem c8_token_missing_auth_failed_witness :
    ∃ d, handle cEnv cReq wNoToken =
      ([RemoteCall.tokenExchange (exchangeUrl (jsTrim cEnv.GITHUB_INSTALLATION_ID))],
        jsonError 500 "auth_failed" "Failed to mint GitHub installation token." (some d)) :=
  c8_token_missing_auth_failed cEnv cReq wNoToken cV "jwt"
    ⟨rfl, rfl, Or.inl rfl⟩ rfl (by decide) rfl (Or.inr rfl)

/-- A `githubFetch` call on a 2xx response yields the parsed data. -/
theorem ghCall_ok_of (w : World) (i : Nat) (h : (w.gh i).ok = true) :
    ghCall (w.gh i) = .ok (ghData (w.gh i)) := by simp [ghCall, h]

/-- A `githubFetch` call on a non-2xx response throws. -/
theorem ghCall_err_of (w : World) (i : Nat) (h : (w.gh i).ok = false) :
    ghCall (w.gh i) = .error (ghFailMsg (w.gh i)) := by simp [ghCall, h]

/-- A `github_error` response is never the success response. -/
theorem ghErrorResp_ne_okPr (m u : String) : ghErrorResp m ≠ WResp.okPr u := by
  simp [ghErrorResp, jsonError]

/-- Characterization of one orchestrator run: the calls performed are the
first `n` of the seven planned calls; a failed response at call `i` stops
the run there; the success response happens exactly on a complete run and
carries the extracted PR URL; any non-success outcome is a `github_error`. -/
theorem orchestrate_run (v : Validated) (w : World) :
    ∃ n, 1 ≤ n ∧ n ≤ 7 ∧
      (orchestrate v w).1 = (plannedCalls v w).take n ∧
      (∀ i, (w.gh i).ok = false → n ≤ i + 1) ∧
      ((w.gh 0).ok = true → 2 ≤ n) ∧
      (∀ u, (orchestrate v w).2 = WResp.okPr u →
        (orchestrate v w).1 = plannedCalls v w ∧ u = prUrlOf w) ∧
      ((∀ u, (orchestrate v w).2 ≠ WResp.okPr u) →
        ∃ d, (orchestrate v w).2 = ghErrorResp d) := by
  cases h0 : (w.gh 0).ok
  case false =>
    have hE : orchestrate v w = ([reqRepo], ghErrorResp (ghFailMsg (w.gh 0))) := by
      unfold orchestrate
      rw [ghCall_err_of w 0 h0]
    refine ⟨1, by omega, by omega, by (rw [hE]; rfl), fun i _ => by omega,
      fun hh => absurd hh (by decide), ?_, fun _ => ⟨_, by rw [hE]⟩⟩
    intro u hu
    rw [hE] at hu
    exact absurd hu (ghErrorResp_ne_okPr _ _)
  case true =>
  have r0 := ghCall_ok_of w 0 h0
  cases h1 : (w.gh 1).ok
  case false =>
    have hE : orchestrate v w =
        ([reqRepo, reqRef (baseBranchOf w)], ghErrorResp (ghFailMsg (w.gh 1))) := by
      unfold orchestrate
      simp only [r0, ghCall_err_of w 1 h1]
      try rfl
    refine ⟨2, by omega, by omega, by (rw [hE]; rfl), ?_, fun _ => by omega, ?_, fun _ => ⟨_, by rw [hE]⟩⟩
    · intro i hi
      rcases i with _ | i
      · exact absurd (h0.symm.trans hi) (by decide)
      · omega
    · intro u hu
      rw [hE] at hu
      exact absurd hu (ghErrorResp_ne_okPr _ _)
  case true =>
  have r1 := ghCall_ok_of w 1 h1
  by_cases hsha : jsString (jsOr (getField (getField (ghData (w.gh 1)) "object") "sha")
      (Json.str "")) = ""
  case pos =>
    have hE : orchestrate v w =
        ([reqRepo, reqRef (baseBranchOf w)], ghErrorResp "Missing base SHA.") := by
      unfold orchestrate
      simp only [r0, r1]
      rw [if_pos hsha]
      try rfl
    refine ⟨2, by omega, by omega, by (rw [hE]; rfl), ?_, fun _ => by omega, ?_, fun _ => ⟨_, by rw [hE]⟩⟩
    · intro i hi
      rcases i with _ | i
      · exact absurd (h0.symm.trans hi) (by decide)
      · omega
    · intro u hu
      rw [hE] at hu
      exact absurd hu (ghErrorResp_ne_okPr _ _)
  case neg =>
  cases h2 : (w.gh 2).ok
  case false =>
    have hE : orchestrate v w =
        ([reqRepo, reqRef (baseBranchOf w),
          reqCreateRef (mkBranch v.imdbId w.now) (baseShaOf w)],
          ghErrorResp (ghFailMsg (w.gh 2))) := by
      unfold orchestrate
      simp only [r0, r1, ghCall_err_of w 2 h2]
      rw [if_neg hsha]
      try rfl
    refine ⟨3, by omega, by omega, by (rw [hE]; rfl), ?_, fun _ => by omega, ?_, fun _ => ⟨_, by rw [hE]⟩⟩
    · intro i hi
      rcases i with _ | _ | i
      · exact absurd (h0.symm.trans hi) (by decide)
      · exact absurd (h1.symm.trans hi) (by decide)
      · omega
    · intro u hu
      rw [hE] at hu
      exact absurd hu (ghErrorResp_ne_okPr _ _)
  case true =>
  have r2 := ghCall_ok_of w 2 h2
  cases h3 : (w.gh 3).ok
  case false =>
    have hE : orchestrate v w =
        ([reqRepo, reqRef (baseBranchOf w),
          reqCreateRef (mkBranch v.imdbId w.now) (baseShaOf w),
          reqPutScene v (mkBranch v.imdbId w.now)],
          ghErrorResp (ghFailMsg (w.gh 3))) := by
      unfold orchestrate
      simp only [r0, r1, r2, ghCall_err_of w 3 h3]
      rw [if_neg hsha]
      try rfl
    refine ⟨4, by omega, by omega, by (rw [hE]; rfl), ?_, fun _ => by omega, ?_, fun _ => ⟨_, by rw [hE]⟩⟩
    · intro i hi
      rcases i with _ | _ | _ | i
      · exact absurd (h0.symm.trans hi) (by decide)
      · exact absurd (h1.symm.trans hi) (by decide)
      · exact absurd (h2.symm.trans hi) (by decide)
      · omega
    · intro u hu
      rw [hE] at hu
      exact absurd hu (ghErrorResp_ne_okPr _ _)
  case true =>
  have r3 := ghCall_ok_of w 3 h3
  cases h4 : (w.gh 4).ok
  case false =>
    have hE : orchestrate v w =
        ([reqRepo, reqRef (baseBranchOf w),
          reqCreateRef (mkBranch v.imdbId w.now) (baseShaOf w),
          reqPutScene v (mkBranch v.imdbId w.now),
          reqReadIndex (mkBranch v.imdbId w.now)],
          ghErrorResp (ghFailMsg (w.gh 4))) := by
      unfold orchestrate
      simp only [r0, r1, r2, r3, ghCall_err_of w 4 h4]
      rw [if_neg hsha]
      try rfl
    refine ⟨5, by omega, by omega, by (rw [hE]; rfl), ?_, fun _ => by omega, ?_, fun _ => ⟨_, by rw [hE]⟩⟩
    · intro i hi
      rcases i with _ | _ | _ | _ | i
      · exact absurd (h0.symm.trans hi) (by decide)
      · exact absurd (h1.symm.trans hi) (by decide)
      · exact absurd (h2.symm.trans hi) (by decide)
      · exact absurd (h3.symm.trans hi) (by decide)
      · omega
    · intro u hu
      rw [hE] at hu
      exact absurd hu (ghErrorResp_ne_okPr _ _)
  case true =>
  have r4 := ghCall_ok_of w 4 h4
  cases hdec : indexTextOf (jsString (jsOr (getField (ghData (w.gh 4)) "content") (Json.str "")))
  case error m =>
    have hE : orchestrate v w =
        ([reqRepo, reqRef (baseBranchOf w),
          reqCreateRef (mkBranch v.imdbId w.now) (baseShaOf w),
          reqPutScene v (mkBranch v.imdbId w.now),
          reqReadIndex (mkBranch v.imdbId w.now)],
          ghErrorResp m) := by
      unfold orchestrate
      simp only [r0, r1, r2, r3, r4, hdec]
      rw [if_neg hsha]
      try rfl
    refine ⟨5, by omega, by omega, by (rw [hE]; rfl), ?_, fun _ => by omega, ?_, fun _ => ⟨_, by rw [hE]⟩⟩
    · intro i hi
      rcases i with _ | _ | _ | _ | i
      · exact absurd (h0.symm.trans hi) (by decide)
      · exact absurd (h1.symm.trans hi) (by decide)
      · exact absurd (h2.symm.trans hi) (by decide)
      · exact absurd (h3.symm.trans hi) (by decide)
      · omega
    · intro u hu
      rw [hE] at hu
      exact absurd hu (ghErrorResp_ne_okPr _ _)
  case ok t =>
  have htext : idxTextOf w = t := by
    unfold idxTextOf idxB64Of idxRespData
    rw [hdec]
  cases h5 : (w.gh 5).ok
  case false =>
    have hE : orchestrate v w =
        ([reqRepo, reqRef (baseBranchOf w),
          reqCreateRef (mkBranch v.imdbId w.now) (baseShaOf w),
          reqPutScene v (mkBranch v.imdbId w.now),
          reqReadIndex (mkBranch v.imdbId w.now),
          reqPutIndex v (mkBranch v.imdbId w.now) (idxShaOf w)
            (updateIndex (parsedIndex (idxTextOf w)) (mkEntry v))],
          ghErrorResp (ghFailMsg (w.gh 5))) := by
      unfold orchestrate
      simp only [r0, r1, r2, r3, r4, hdec, ghCall_err_of w 5 h5]
      rw [if_neg hsha, htext]
      try rfl
    refine ⟨6, by omega, by omega, by (rw [hE]; rfl), ?_, fun _ => by omega, ?_, fun _ => ⟨_, by rw [hE]⟩⟩
    · intro i hi
      rcases i with _ | _ | _ | _ | _ | i
      · exact absurd (h0.symm.trans hi) (by decide)
      · exact absurd (h1.symm.trans hi) (by decide)
      · exact absurd (h2.symm.trans hi) (by decide)
      · exact absurd (h3.symm.trans hi) (by decide)
      · exact absurd (h4.symm.trans hi) (by decide)
      · omega
    · intro u hu
      rw [hE] at hu
      exact absurd hu (ghErrorResp_ne_okPr _ _)
  case true =>
  have r5 := ghCall_ok_of w 5 h5
  cases h6 : (w.gh 6).ok
  case false =>
    have hE : orchestrate v w =
        (plannedCalls v w, ghErrorResp (ghFailMsg (w.gh 6))) := by
      unfold orchestrate plannedCalls
      simp only [r0, r1, r2, r3, r4, hdec, r5, ghCall_err_of w 6 h6]
      rw [if_neg hsha, htext]
      try rfl
    refine ⟨7, by omega, by omega, by (rw [hE]; rfl), ?_, fun _ => by omega, ?_,
      fun _ => ⟨_, by rw [hE]⟩⟩
    · intro i hi
      rcases i with _ | _ | _ | _ | _ | _ | i
      · exact absurd (h0.symm.trans hi) (by decide)
      · exact absurd (h1.symm.trans hi) (by decide)
      · exact absurd (h2.symm.trans hi) (by decide)
      · exact absurd (h3.symm.trans hi) (by decide)
      · exact absurd (h4.symm.trans hi) (by decide)
      · exact absurd (h5.symm.trans hi) (by decide)
      · omega
    · intro u hu
      rw [hE] at hu
      exact absurd hu (ghErrorResp_ne_okPr _ _)
  case true =>
  have r6 := ghCall_ok_of w 6 h6
  by_cases hurl : jsTrim (jsString (jsOr (getField (ghData (w.gh 6)) "html_url")
      (Json.str ""))) = ""
  case pos =>
    have hE : orchestrate v w =
        (plannedCalls v w, ghErrorResp "PR created but missing html_url.") := by
      unfold orchestrate plannedCalls
      simp only [r0, r1, r2, r3, r4, hdec, r5, r6]
      rw [if_neg hsha, if_pos hurl, htext]
      try rfl
    refine ⟨7, by omega, by omega, by (rw [hE]; rfl), ?_, fun _ => by omega, ?_,
      fun _ => ⟨_, by rw [hE]⟩⟩
    · intro i hi
      rcases i with _ | _ | _ | _ | _ | _ | i
      · exact absurd (h0.symm.trans hi) (by decide)
      · exact absurd (h1.symm.trans hi) (by decide)
      · exact absurd (h2.symm.trans hi) (by decide)
      · exact absurd (h3.symm.trans hi) (by decide)
      · exact absurd (h4.symm.trans hi) (by decide)
      · exact absurd (h5.symm.trans hi) (by decide)
      · omega
    · intro u hu
      rw [hE] at hu
      exact absurd hu (ghErrorResp_ne_okPr _ _)
  case neg =>
    have hE : orchestrate v w = (plannedCalls v w, WResp.okPr (prUrlOf w)) := by
      unfold orchestrate plannedCalls
      simp only [r0, r1, r2, r3, r4, hdec, r5, r6]
      rw [if_neg hsha, if_neg hurl, htext]
      try rfl
    refine ⟨7, by omega, by omega, by (rw [hE]; rfl), ?_, fun _ => by omega, ?_, ?_⟩
    · intro i hi
      rcases i with _ | _ | _ | _ | _ | _ | i
      · exact absurd (h0.symm.trans hi) (by decide)
      · exact absurd (h1.symm.trans hi) (by decide)
      · exact absurd (h2.symm.trans hi) (by decide)
      · exact absurd (h3.symm.trans hi) (by decide)
      · exact absurd (h4.symm.trans hi) (by decide)
      · exact absurd (h5.symm.trans hi) (by decide)
      · omega
    · intro u hu
      rw [hE] at hu
      exact ⟨by rw [hE], (WResp.okPr.inj hu).symm⟩
    · intro hne
      exact absurd (by rw [hE]) (hne (prUrlOf w))

/-- The plan always has exactly seven requests. -/
theorem plannedCalls_length (v : Validated) (w : World) :
    (plannedCalls v w).length = 7 := rfl

/-- Every planned request is a read or carries the submission branch. -/
theorem plannedCalls_onBranch (v : Validated) (w : World) :
    ∀ r ∈ plannedCalls v w, onBranch (mkBranch v.imdbId w.now) r := by
  intro r hr
  simp only [plannedCalls, List.mem_cons, List.not_mem_nil, or_false] at hr
  rcases hr with h | h | h | h | h | h | h <;> subst h
  · exact Or.inl rfl
  · exact Or.inl rfl
  · exact Or.inr ⟨_, rfl, Or.inr (Or.inl rfl)⟩
  · exact Or.inr ⟨_, rfl, Or.inl rfl⟩
  · exact Or.inl rfl
  · exact Or.inr ⟨_, rfl, Or.inl rfl⟩
  · exact Or.inr ⟨_, rfl, Or.inr (Or.inr rfl)⟩

/-- C1: once validation and credential minting pass, the handler's remote
calls are the exchange followed by the orchestrator's GitHub calls, which
form a prefix of the fixed seven-request plan (metadata, ref, create-ref,
write-file, read-index, write-index, create-PR); every request is a read or
carries the single submission branch; the success response happens exactly
on the full seven-call run and carries the extracted PR URL; any other
outcome is a single `github_error`; and no call after a failed one is
attempted. -/
theorem c1_orchestrator_seven_calls
    (env : Env) (req : Req) (w : World) (v : Validated) (tok : String)
    (hr : routeOk env req)
    (hv : validate (parseJson req.bodyText) = .ok v)
    (hm : (mintInstallationToken env w).2 = Except.ok tok) :
    handle env req w =
      ((mintInstallationToken env w).1 ++ (orchestrate v w).1.map RemoteCall.github,
        (orchestrate v w).2)
    ∧ (plannedCalls v w).length = 7
    ∧ (orchestrate v w).1 <+: plannedCalls v w
    ∧ (∀ r ∈ (orchestrate v w).1, onBranch (mkBranch v.imdbId w.now) r)
    ∧ (∀ u, (orchestrate v w).2 = WResp.okPr u →
        (orchestrate v w).1 = plannedCalls v w ∧ u = prUrlOf w)
    ∧ ((∀ u, (orchestrate v w).2 ≠ WResp.okPr u) →
        ∃ d, (orchestrate v w).2 = ghErrorResp d)
    ∧ (∀ i, (w.gh i).ok = false → (orchestrate v w).1.length ≤ i + 1) := by
  obtain ⟨n, _hn1, _hn7, htake, hstop, _h2n, hok, herr⟩ := orchestrate_run v w
  refine ⟨handle_after_mint env req w v tok hr hv hm, rfl, ?_, ?_, hok, herr, ?_⟩
  · rw [htake]
    have hpre := List.take_prefix n (plannedCalls v w)
    exact hpre
  · intro r hrr
    rw [htake] at hrr
    have hpre := List.take_prefix n (plannedCalls v w)
    exact plannedCalls_onBranch v w r (hpre.subset hrr)
  · intro i hi
    rw [htake, List.length_take]
    exact le_trans (min_le_left _ _) (hstop i hi)

/-- Witness for C1: the fully successful fixture run. -/
theorem c1_orchestrator_seven_calls_witness :
    handle cEnv cReq wOk =
      ((mintInstallationToken cEnv wOk).1 ++ (orchestrate cV wOk).1.map RemoteCall.github,
        (orchestrate cV wOk).2)
    ∧ (plannedCalls cV wOk).length = 7
    ∧ (orchestrate cV wOk).1 <+: plannedCalls cV wOk
    ∧ (∀ r ∈ (orchestrate cV wOk).1, onBranch (mkBranch cV.imdbId wOk.now) r)
    ∧ (∀ u, (orchestrate cV wOk).2 = WResp.okPr u →
        (orchestrate cV wOk).1 = plannedCalls cV wOk ∧ u = prUrlOf wOk)
    ∧ ((∀ u, (orchestrate cV wOk).2 ≠ WResp.okPr u) →
        ∃ d, (orchestrate cV wOk).2 = ghErrorResp d)
    ∧ (∀ i, (wOk.gh i).ok = false → (orchestrate cV wOk).1.length ≤ i + 1) :=
  c1_orchestrator_seven_calls cEnv cReq wOk cV "tok123" ⟨rfl, rfl, Or.inl rfl⟩ rfl rfl

/-- C9: when the repository metadata lacks a truthy `default_branch`, the
orchestrator does not fail there: the second call reads the ref of the
literal branch `main`, and the pull request (when reached) targets base
`main`. -/
theorem c9_default_branch_fallback_main (v : Validated) (w : World)
    (h0 : (w.gh 0).ok = true)
    (hdb : truthy (getField (ghData (w.gh 0)) "default_branch") = false) :
    (orchestrate v w).1.get? 1 = some (reqRef "main")
    ∧ ∀ r, (orchestrate v w).1.get? 6 = some r →
        ∃ b, r.body = some b ∧ getField b "base" = Json.str "main" := by
  have hbb : baseBranchOf w = "main" := by
    unfold baseBranchOf
    simp [jsOr, hdb, jsString]
  obtain ⟨n, hn1, hn7, htake, _, h2n, _, _⟩ := orchestrate_run v w
  have hn2 := h2n h0
  constructor
  · rw [htake]
    interval_cases n <;> simp [plannedCalls, hbb]
  · intro r hr6
    rw [htake] at hr6
    interval_cases n <;> simp [plannedCalls] at hr6
    subst hr6
    refine ⟨_, rfl, ?_⟩
    show Json.str (baseBranchOf w) = Json.str "main"
    rw [hbb]

/-- Witness for C9: metadata response `\x7b\x7d` falls back to `main`. -/
theorem c9_default_branch_fallback_main_witness :
    (orchestrate cV wNoDefBranch).1.get? 1 = some (reqRef "main")
    ∧ ∀ r, (orchestrate cV wNoDefBranch).1.get? 6 = some r →
        ∃ b, r.body = some b ∧ getField b "base" = Json.str "main" :=
  c9_default_branch_fallback_main cV wNoDefBranch rfl (by decide)

/-- C10: whenever the index write is issued, its body carries a `sha`
field equal to the string captured at index-read time - in particular the
empty string (rather than an omitted field) when the read response had no
`sha`. -/
theorem c10_index_write_always_sha (v : Validated) (w : World) (r : GhRequest)
    (h5 : (orchestrate v w).1.get? 5 = some r) :
    ∃ fs, r.body = some (Json.obj fs) ∧ fieldsHas fs "sha" = true ∧
      getField (Json.obj fs) "sha" = Json.str (idxShaOf w) ∧
      (truthy (getField (idxRespData w) "sha") = false →
        getField (Json.obj fs) "sha" = Json.str "") := by
  have hempty : truthy (getField (idxRespData w) "sha") = false →
      idxShaOf w = "" := by
    intro hsha
    unfold idxShaOf
    simp [jsOr, hsha, jsString]
  obtain ⟨n, hn1, hn7, htake, _, _, _, _⟩ := orchestrate_run v w
  rw [htake] at h5
  interval_cases n <;> simp [plannedCalls] at h5 <;> subst h5 <;>
    exact ⟨_, rfl, rfl, rfl, fun hsha => by
      show Json.str (idxShaOf w) = Json.str ""
      rw [hempty hsha]⟩

/-- Witness for C10: an index-read response with neither `sha` nor
`content` still yields a write carrying `sha`, as the empty string. -/
theorem c10_index_write_always_sha_witness :
    ∃ fs, (reqPutIndex cV cBranch (idxShaOf wNoIdxMeta)
        (updateIndex (parsedIndex (idxTextOf wNoIdxMeta)) (mkEntry cV))).body =
        some (Json.obj fs) ∧
      fieldsHas fs "sha" = true ∧
      getField (Json.obj fs) "sha" = Json.str (idxShaOf wNoIdxMeta) ∧
      (truthy (getField (idxRespData wNoIdxMeta) "sha") = false →
        getField (Json.obj fs) "sha" = Json.str "") :=
  c10_index_write_always_sha cV wNoIdxMeta
    (reqPutIndex cV cBranch (idxShaOf wNoIdxMeta)
      (updateIndex (parsedIndex (idxTextOf wNoIdxMeta)) (mkEntry cV))) rfl

/-- Counterexample for C3: when the index file on the branch contains the
JSON array `[]`, the submission still succeeds but the written index is
the array unchanged - the new entry is silently lost, so the written
document is not the read document with the entry appended. -/
theorem c3_array_index_entry_lost_cex :
    (handle cEnv cReq wArrIndex).2 = WResp.okPr "https://github.com/pr/1"
    ∧ (handle cEnv cReq wArrIndex).1.get? 6 =
        some (RemoteCall.github (reqPutIndex cV cBranch "idx" (Json.arr .nil)))
    ∧ parsedIndex "[]" = Json.arr .nil
    ∧ updateIndex (Json.arr .nil) (mkEntry cV) = Json.arr .nil
    ∧ specIndexAppend (Json.arr .nil) (mkEntry cV) ≠ Json.arr .nil :=
  ⟨rfl, rfl, rfl, rfl, by decide⟩

/-- C3 (amended): whenever the index write is issued, it writes - to
`index.json`, on the submission branch, with the SHA observed at read
time - the decoded index document updated by `updateIndex`: for an object
document exactly one entry is appended at the end of `movies` (other keys
and existing entries untouched, `movies` created if missing or not an
array); empty or unparsable content is treated as the empty object; but a
document that parses to a JSON ARRAY is written back unchanged and the
entry is lost. -/
theorem c3_index_append_write (v : Validated) (w : World) (t : String) (r : GhRequest)
    (hidx : indexTextOf (idxB64Of w) = .ok t)
    (h5 : (orchestrate v w).1.get? 5 = some r) :
    r = reqPutIndex v (mkBranch v.imdbId w.now) (idxShaOf w)
        (updateIndex (parsedIndex t) (mkEntry v))
    ∧ (∀ fs, parsedIndex t = Json.obj fs →
        updateIndex (parsedIndex t) (mkEntry v) =
          Json.obj (objInsert fs "movies"
            (Json.arr (listToJsonList (moviesOfFields fs ++ [mkEntry v])))))
    ∧ (∀ xs, parsedIndex t = Json.arr xs →
        updateIndex (parsedIndex t) (mkEntry v) = Json.arr xs)
    ∧ (parseJson t = none →
        updateIndex (parsedIndex t) (mkEntry v) =
          Jobj [("movies", Json.arr (listToJsonList [mkEntry v]))]) := by
  have htext : idxTextOf w = t := by
    unfold idxTextOf
    rw [hidx]
  refine ⟨?_, ?_, ?_, ?_⟩
  · obtain ⟨n, hn1, hn7, htake, _, _, _, _⟩ := orchestrate_run v w
    rw [htake] at h5
    interval_cases n <;> simp [plannedCalls, htext] at h5 <;> exact h5.symm
  · intro fs hfs
    rw [hfs]
    rfl
  · intro xs hxs
    rw [hxs]
    rfl
  · intro hnone
    have hpi : parsedIndex t = Jobj [] := by
      unfold parsedIndex
      rw [hnone]
    rw [hpi]
    rfl

/-- Witness for C3 (amended): the successful fixture run writes the empty
object's update. -/
theorem c3_index_append_write_witness :
    reqPutIndex cV cBranch "idx" (updateIndex (parsedIndex "\x7b\x7d") (mkEntry cV)) =
      reqPutIndex cV (mkBranch cV.imdbId wOk.now) (idxShaOf wOk)
        (updateIndex (parsedIndex "\x7b\x7d") (mkEntry cV))
    ∧ (∀ fs, parsedIndex "\x7b\x7d" = Json.obj fs →
        updateIndex (parsedIndex "\x7b\x7d") (mkEntry cV) =
          Json.obj (objInsert fs "movies"
            (Json.arr (listToJsonList (moviesOfFields fs ++ [mkEntry cV])))))
    ∧ (∀ xs, parsedIndex "\x7b\x7d" = Json.arr xs →
        updateIndex (parsedIndex "\x7b\x7d") (mkEntry cV) = Json.arr xs)
    ∧ (parseJson "\x7b\x7d" = none →
        updateIndex (parsedIndex "\x7b\x7d") (mkEntry cV) =
          Jobj [("movies", Json.arr (listToJsonList [mkEntry cV]))]) :=
  c3_index_append_write cV wOk "\x7b\x7d"
    (reqPutIndex cV cBranch "idx" (updateIndex (parsedIndex "\x7b\x7d") (mkEntry cV)))
    rfl rfl

end Bleepr
